import Mathlib

/-!
Verification development for the incident-tracker backend.

This file gives a shallow embedding, in Lean, of the authorization policy
engine, the incident status state machine, the tenant/incident/usage/api-key
services and their in-memory repositories, translated from the TypeScript
sources, together with theorems checking the natural-language specification
against that embedding.

Modelling conventions:
  - timestamps (JS `Date` values) are naturals (milliseconds since epoch);
  - ids, emails, tokens and hashes are Lean `String`s; `sha256` is modelled
    as an arbitrary function parameter `hash : String -> String` because no
    property of the digest itself is relevant to any claim;
  - JS `Map`s keyed by id are association lists looked up by key equality;
  - a thrown `AppError` is an `Except.error`; async calls are sequenced
    state passing.
-/

namespace IncidentTracker

/-- Shallow embedding of the AppError class: status code, machine-readable
code, human message, and the optional details payload (used only by the
quota-exceeded error, which carries the pair (limit, used)). -/
structure AppError where
  status : Nat
  code : String
  message : String
  details : Option (Nat × Nat) := none
deriving DecidableEq, Repr

instance {ε α : Type} [DecidableEq ε] [DecidableEq α] : DecidableEq (Except ε α) := fun x y =>
  match x, y with
  | .error e₁, .error e₂ =>
    if h : e₁ = e₂ then .isTrue (by rw [h]) else .isFalse (fun hh => by cases hh; exact h rfl)
  | .error _, .ok _ => .isFalse (fun hh => by cases hh)
  | .ok _, .error _ => .isFalse (fun hh => by cases hh)
  | .ok a₁, .ok a₂ =>
    if h : a₁ = a₂ then .isTrue (by rw [h]) else .isFalse (fun hh => by cases hh; exact h rfl)

/-! Org roles, incident roles and policy actions, from
src/policies/authorization.ts and the tenant repository types. -/

inductive OrgRole
  | Owner | Admin | Responder | Viewer | Billing
deriving DecidableEq, Repr, Fintype

/-- INCIDENT_ROLES from src/policies/authorization.ts. -/
inductive IncidentRole
  | IC | CL | OL | SME
deriving DecidableEq, Repr, Fintype

/-- POLICY_ACTIONS from src/policies/authorization.ts (closed enumeration). -/
inductive PolicyAction
  | tenant_read | tenant_update_settings
  | members_invite | members_remove | members_change_role
  | services_create | services_update | services_archive
  | incidents_create | incidents_read | incidents_update
  | incidents_change_severity | incidents_resolve | incidents_close
  | incidents_assign_incident_roles
  | timeline_add_event
  | updates_publish_internal | updates_publish_external
  | tasks_create | tasks_assign
  | postmortems_create | postmortems_edit | postmortems_publish
  | api_keys_manage | webhooks_manage | audit_log_read
  | exports_create | billing_read | billing_manage_plan
deriving DecidableEq, Repr, Fintype

/-- Stable action name used in the generic denial reason string. -/
def actionName : PolicyAction → String
  | .tenant_read => "tenant.read"
  | .tenant_update_settings => "tenant.update_settings"
  | .members_invite => "members.invite"
  | .members_remove => "members.remove"
  | .members_change_role => "members.change_role"
  | .services_create => "services.create"
  | .services_update => "services.update"
  | .services_archive => "services.archive"
  | .incidents_create => "incidents.create"
  | .incidents_read => "incidents.read"
  | .incidents_update => "incidents.update"
  | .incidents_change_severity => "incidents.change_severity"
  | .incidents_resolve => "incidents.resolve"
  | .incidents_close => "incidents.close"
  | .incidents_assign_incident_roles => "incidents.assign_incident_roles"
  | .timeline_add_event => "timeline.add_event"
  | .updates_publish_internal => "updates.publish_internal"
  | .updates_publish_external => "updates.publish_external"
  | .tasks_create => "tasks.create"
  | .tasks_assign => "tasks.assign"
  | .postmortems_create => "postmortems.create"
  | .postmortems_edit => "postmortems.edit"
  | .postmortems_publish => "postmortems.publish"
  | .api_keys_manage => "api_keys.manage"
  | .webhooks_manage => "webhooks.manage"
  | .audit_log_read => "audit_log.read"
  | .exports_create => "exports.create"
  | .billing_read => "billing.read"
  | .billing_manage_plan => "billing.manage_plan"

/-- PolicyRule from src/policies/authorization.ts. -/
structure PolicyRule where
  allowedRoles : List OrgRole
  responderIncidentRoles : Option (List IncidentRole) := none
deriving DecidableEq, Repr

/-- AuthorizationContext from src/policies/authorization.ts. -/
structure AuthorizationContext where
  userId : String
  tenantId : String
  orgRoles : List OrgRole
deriving DecidableEq, Repr

/-- AuthorizationResourceContext: the optional incident-role set supplied
with a check. -/
structure AuthorizationResourceContext where
  incidentRoles : Option (List IncidentRole) := none
deriving DecidableEq, Repr

/-- AuthorizationDecision from src/policies/authorization.ts. -/
structure AuthorizationDecision where
  allowed : Bool
  reason : Option String := none
deriving DecidableEq, Repr

/-- POLICY_RULES table from src/policies/authorization.ts, verbatim. -/
def POLICY_RULES : PolicyAction → PolicyRule
  | .tenant_read => { allowedRoles := [.Owner, .Admin, .Responder, .Viewer, .Billing] }
  | .tenant_update_settings => { allowedRoles := [.Owner, .Admin] }
  | .members_invite => { allowedRoles := [.Owner, .Admin] }
  | .members_remove => { allowedRoles := [.Owner, .Admin] }
  | .members_change_role => { allowedRoles := [.Owner, .Admin] }
  | .services_create => { allowedRoles := [.Owner, .Admin, .Responder] }
  | .services_update => { allowedRoles := [.Owner, .Admin, .Responder] }
  | .services_archive => { allowedRoles := [.Owner, .Admin, .Responder] }
  | .incidents_create => { allowedRoles := [.Owner, .Admin, .Responder] }
  | .incidents_read => { allowedRoles := [.Owner, .Admin, .Responder, .Viewer] }
  | .incidents_update => { allowedRoles := [.Owner, .Admin, .Responder] }
  | .incidents_change_severity => { allowedRoles := [.Owner, .Admin, .Responder] }
  | .incidents_resolve => { allowedRoles := [.Owner, .Admin, .Responder] }
  | .incidents_close => { allowedRoles := [.Owner, .Admin, .Responder] }
  | .incidents_assign_incident_roles =>
      { allowedRoles := [.Owner, .Admin, .Responder], responderIncidentRoles := some [.IC] }
  | .timeline_add_event => { allowedRoles := [.Owner, .Admin, .Responder] }
  | .updates_publish_internal => { allowedRoles := [.Owner, .Admin, .Responder] }
  | .updates_publish_external =>
      { allowedRoles := [.Owner, .Admin, .Responder], responderIncidentRoles := some [.IC, .CL] }
  | .tasks_create => { allowedRoles := [.Owner, .Admin, .Responder] }
  | .tasks_assign => { allowedRoles := [.Owner, .Admin, .Responder] }
  | .postmortems_create => { allowedRoles := [.Owner, .Admin, .Responder] }
  | .postmortems_edit => { allowedRoles := [.Owner, .Admin, .Responder] }
  | .postmortems_publish =>
      { allowedRoles := [.Owner, .Admin, .Responder], responderIncidentRoles := some [.IC] }
  | .api_keys_manage => { allowedRoles := [.Owner, .Admin] }
  | .webhooks_manage => { allowedRoles := [.Owner, .Admin] }
  | .audit_log_read => { allowedRoles := [.Owner, .Admin, .Responder] }
  | .exports_create => { allowedRoles := [.Owner, .Admin] }
  | .billing_read => { allowedRoles := [.Owner, .Billing] }
  | .billing_manage_plan => { allowedRoles := [.Owner, .Billing] }

/-- hasRequiredIncidentRole from src/policies/authorization.ts. -/
def hasRequiredIncidentRole (role : OrgRole) (rule : PolicyRule)
    (resource : Option AuthorizationResourceContext) : Bool :=
  if role ≠ .Responder then
    true
  else
    match rule.responderIncidentRoles with
    | none => true
    | some responderRoles =>
      match resource.bind (fun r => r.incidentRoles) with
      | none => false
      | some incidentRoles =>
        if incidentRoles.length = 0 then
          false
        else
          incidentRoles.any (fun incidentRole => responderRoles.contains incidentRole)

/-- Role loop inside authorize: roles not in allowedRoles are skipped; the
first allowed role that also passes the incident-role gate wins. -/
def authorizeLoop (rule : PolicyRule) (resource : Option AuthorizationResourceContext) :
    List OrgRole → Bool
  | [] => false
  | role :: rest =>
    if !(rule.allowedRoles.contains role) then
      authorizeLoop rule resource rest
    else if hasRequiredIncidentRole role rule resource then
      true
    else
      authorizeLoop rule resource rest

/-- authorize from src/policies/authorization.ts. -/
def authorize (action : PolicyAction) (context : AuthorizationContext)
    (resource : Option AuthorizationResourceContext := none) : AuthorizationDecision :=
  let rule := POLICY_RULES action
  if authorizeLoop rule resource context.orgRoles then
    { allowed := true }
  else
    { allowed := false,
      reason := some ("Missing permission for action '" ++ actionName action ++ "'.") }

/-- assertAuthorized from src/policies/authorization.ts: 403 PERMISSION_DENIED
on a denied decision. -/
def assertAuthorized (action : PolicyAction) (context : AuthorizationContext)
    (resource : Option AuthorizationResourceContext := none) : Except AppError Unit :=
  let decision := authorize action context resource
  if decision.allowed then
    Except.ok ()
  else
    Except.error
      { status := 403, code := "PERMISSION_DENIED",
        message := decision.reason.getD "Permission denied." }

/-! Incident status state machine, from the incident service source. -/

/-- INCIDENT_STATUSES. -/
inductive IncidentStatus
  | declared | investigating | mitigating | monitoring | resolved | closed
deriving DecidableEq, Repr, Fintype

/-- Status name used in the transition error message. -/
def statusName : IncidentStatus → String
  | .declared => "declared"
  | .investigating => "investigating"
  | .mitigating => "mitigating"
  | .monitoring => "monitoring"
  | .resolved => "resolved"
  | .closed => "closed"

/-- STATUS_TRANSITIONS table from the incident service source. -/
def STATUS_TRANSITIONS : IncidentStatus → List IncidentStatus
  | .declared => [.investigating, .mitigating, .monitoring, .resolved]
  | .investigating => [.mitigating, .monitoring, .resolved]
  | .mitigating => [.monitoring, .resolved]
  | .monitoring => [.resolved]
  | .resolved => [.closed]
  | .closed => []

/-- ensureAllowedStatusTransition from the incident service source: same
status is a no-op success; otherwise the move must be in the table. -/
def ensureAllowedStatusTransition (current next : IncidentStatus) : Except AppError Unit :=
  if current = next then
    Except.ok ()
  else
    let allowed := STATUS_TRANSITIONS current
    if !(allowed.contains next) then
      Except.error
        { status := 400, code := "INCIDENT_STATUS_TRANSITION_INVALID",
          message := "Cannot move incident from " ++ statusName current ++
            " to " ++ statusName next ++ "." }
    else
      Except.ok ()

/-! Tenancy data model, from src/repositories/tenant-repository.ts and the
in-memory tenant repository. Entity ids that are UUID strings compared with
localeCompare in the source (incident/timeline/task/status-update ids) are
modelled as naturals so that the tie-break order is the numeric order; other
ids, emails and tokens stay strings. -/

structure Tenant where
  id : String
  name : String
  slug : String
  createdByUserId : String
  createdAt : Nat
  updatedAt : Nat
deriving DecidableEq, Repr

structure Membership where
  id : String
  tenantId : String
  userId : String
  role : OrgRole
  createdAt : Nat
  updatedAt : Nat
deriving DecidableEq, Repr

structure TenantInvite where
  id : String
  tenantId : String
  email : String
  role : OrgRole
  tokenHash : String
  invitedByUserId : String
  expiresAt : Nat
  acceptedAt : Option Nat
  acceptedByUserId : Option String
  createdAt : Nat
deriving DecidableEq, Repr

/-- State of the InMemoryTenantRepository: tenants, memberships (keyed in the
source by the pair tenantId:userId) and invites (keyed by id with a token-hash
index). -/
structure TenantRepoState where
  tenants : List Tenant
  memberships : List Membership
  invites : List TenantInvite
deriving DecidableEq, Repr

/-- InMemoryTenantRepository.getMembership: lookup by the (tenantId, userId)
key. -/
def getMembership (st : TenantRepoState) (tenantId userId : String) : Option Membership :=
  st.memberships.find? (fun m => m.tenantId == tenantId && m.userId == userId)

/-- Incident data model, from src/repositories/incident-repository.ts. -/

inductive IncidentSeverity
  | SEV1 | SEV2 | SEV3 | SEV4
deriving DecidableEq, Repr, Fintype

inductive TaskStatus
  | open | in_progress | completed
deriving DecidableEq, Repr, Fintype

inductive StatusUpdateAudience
  | internal | external
deriving DecidableEq, Repr, Fintype

structure Incident where
  id : Nat
  tenantId : String
  title : String
  description : String
  severity : IncidentSeverity
  status : IncidentStatus
  startTime : Nat
  endTime : Option Nat
  declaredByUserId : String
  impactedServices : List String
  createdAt : Nat
  updatedAt : Nat
deriving DecidableEq, Repr

structure TimelineEvent where
  id : Nat
  tenantId : String
  incidentId : Nat
  eventTime : Nat
  eventType : String
  message : String
  createdByUserId : String
  createdAt : Nat
deriving DecidableEq, Repr

structure IncidentTask where
  id : Nat
  tenantId : String
  incidentId : Nat
  title : String
  description : String
  status : TaskStatus
  assigneeUserId : Option String
  dueAt : Option Nat
  createdByUserId : String
  createdAt : Nat
  updatedAt : Nat
deriving DecidableEq, Repr

structure StatusUpdate where
  id : Nat
  tenantId : String
  incidentId : Nat
  audience : StatusUpdateAudience
  message : String
  createdByUserId : String
  publishedAt : Nat
  createdAt : Nat
deriving DecidableEq, Repr

/-- State of the InMemoryIncidentRepository. The source keeps child records in
per-incident arrays inside maps; flat lists carrying incidentId are the same
data. -/
structure IncidentRepoState where
  incidents : List Incident
  timeline : List TimelineEvent
  tasks : List IncidentTask
  statusUpdates : List StatusUpdate
deriving DecidableEq, Repr

/-- Whitespace trim of the source's `value.trim()`. -/
def trimStr (s : String) : String :=
  ⟨((s.data.dropWhile (fun c => c.isWhitespace)).reverse.dropWhile
      (fun c => c.isWhitespace)).reverse⟩

/-- First-occurrence deduplication, the order produced by iterating a JS Set
built by insertion. -/
def dedupFirstAux {α : Type} [DecidableEq α] (seen : List α) : List α → List α
  | [] => []
  | x :: xs =>
    if x ∈ seen then dedupFirstAux seen xs
    else x :: dedupFirstAux (x :: seen) xs

def dedupFirst {α : Type} [DecidableEq α] (l : List α) : List α := dedupFirstAux [] l

/-- uniqueServices from the in-memory incident repository: trim, drop empties,
dedupe keeping first occurrences. -/
def uniqueServices (services : List String) : List String :=
  dedupFirst ((services.map trimStr).filter (fun value => value.length != 0))

/-- InMemoryIncidentRepository.findIncidentById: id lookup, null when the
record is absent or belongs to another tenant. -/
def findIncidentById (incidents : List Incident) (tenantId : String) (incidentId : Nat) :
    Option Incident :=
  match incidents.find? (fun record => record.id == incidentId) with
  | none => none
  | some record => if record.tenantId != tenantId then none else some record

/-- UpdateIncidentInput: absent fields are not touched; endTime distinguishes
absent from explicit null. -/
structure UpdateIncidentInput where
  title : Option String := none
  description : Option String := none
  severity : Option IncidentSeverity := none
  status : Option IncidentStatus := none
  endTime : Option (Option Nat) := none
  impactedServices : Option (List String) := none
deriving DecidableEq, Repr

/-- Field application of InMemoryIncidentRepository.updateIncident. -/
def applyIncidentUpdate (record : Incident) (input : UpdateIncidentInput) (updatedAt : Nat) :
    Incident :=
  { record with
    title := input.title.getD record.title
    description := input.description.getD record.description
    severity := input.severity.getD record.severity
    status := input.status.getD record.status
    endTime := match input.endTime with | none => record.endTime | some e => e
    impactedServices := match input.impactedServices with
      | none => record.impactedServices
      | some services => uniqueServices services
    updatedAt := updatedAt }

/-- InMemoryIncidentRepository.updateIncident: null when absent or in another
tenant, otherwise the mutated record and the updated store. -/
def repoUpdateIncident (incidents : List Incident) (tenantId : String) (incidentId : Nat)
    (input : UpdateIncidentInput) (updatedAt : Nat) : Option Incident × List Incident :=
  match incidents.find? (fun record => record.id == incidentId) with
  | none => (none, incidents)
  | some record =>
    if record.tenantId != tenantId then
      (none, incidents)
    else
      let updated := applyIncidentUpdate record input updatedAt
      (some updated, incidents.map (fun r => if r.id == incidentId then updated else r))

/-- Error values thrown by the services. -/

def tenantNotFoundError : AppError :=
  { status := 404, code := "TENANT_NOT_FOUND", message := "Tenant not found." }

def incidentNotFoundError : AppError :=
  { status := 404, code := "INCIDENT_NOT_FOUND", message := "Incident not found." }

def taskNotFoundError : AppError :=
  { status := 404, code := "TASK_NOT_FOUND", message := "Task not found." }

def inviteInvalidError : AppError :=
  { status := 400, code := "INVITE_INVALID",
    message := "Invite token is invalid, expired, or already accepted." }

/-- membershipAuthContext helper shared by the services. -/
def membershipAuthContext (membership : Membership) : AuthorizationContext :=
  { userId := membership.userId, tenantId := membership.tenantId,
    orgRoles := [membership.role] }

/-- IncidentService.requireMembership: 404 TENANT_NOT_FOUND when no membership
row exists for (tenant, user). -/
def requireMembership (st : TenantRepoState) (userId tenantId : String) :
    Except AppError Membership :=
  match getMembership st tenantId userId with
  | none => Except.error tenantNotFoundError
  | some membership => Except.ok membership

/-- TenantService.switchActiveTenant: membership lookup, NotFound without a
row, then the tenant.read policy check. -/
def switchActiveTenant (st : TenantRepoState) (userId tenantId : String) :
    Except AppError Membership := do
  let membership ← requireMembership st userId tenantId
  let _ ← assertAuthorized .tenant_read (membershipAuthContext membership)
  pure membership

/-- IncidentService.getIncident. -/
def getIncident (tenantSt : TenantRepoState) (incidentSt : IncidentRepoState)
    (userId tenantId : String) (incidentId : Nat) : Except AppError Incident := do
  let membership ← requireMembership tenantSt userId tenantId
  match findIncidentById incidentSt.incidents tenantId incidentId with
  | none => Except.error incidentNotFoundError
  | some incident => do
    let _ ← assertAuthorized .incidents_read (membershipAuthContext membership)
    pure incident

/-- IncidentService.updateIncident: membership, incident existence, transition
check, resolve-vs-update permission on the status branch, change_severity when
severity is present, then the repository write. -/
def updateIncident (tenantSt : TenantRepoState) (incidentSt : IncidentRepoState)
    (userId tenantId : String) (incidentId : Nat) (input : UpdateIncidentInput)
    (now : Nat) : Except AppError (Incident × IncidentRepoState) := do
  let membership ← requireMembership tenantSt userId tenantId
  match findIncidentById incidentSt.incidents tenantId incidentId with
  | none => Except.error incidentNotFoundError
  | some currentIncident => do
    let authContext := membershipAuthContext membership
    match input.status with
    | some nextStatus => do
      let _ ← ensureAllowedStatusTransition currentIncident.status nextStatus
      if nextStatus = .resolved ∨ nextStatus = .closed then
        let _ ← assertAuthorized .incidents_resolve authContext
      else
        let _ ← assertAuthorized .incidents_update authContext
    | none =>
      let _ ← assertAuthorized .incidents_update authContext
    if input.severity ≠ none then
      let _ ← assertAuthorized .incidents_change_severity authContext
    match repoUpdateIncident incidentSt.incidents tenantId incidentId input now with
    | (none, _) => Except.error incidentNotFoundError
    | (some updated, incidents) => pure (updated, { incidentSt with incidents := incidents })

/-- IncidentService.addTimelineEvent (creation body elided to the repository
append; the claim-relevant part is the lookup/authorization prefix). -/
def addTimelineEvent (tenantSt : TenantRepoState) (incidentSt : IncidentRepoState)
    (userId tenantId : String) (incidentId : Nat) (newId eventTime : Nat)
    (eventType message : String) (now : Nat) :
    Except AppError (TimelineEvent × IncidentRepoState) := do
  let membership ← requireMembership tenantSt userId tenantId
  match findIncidentById incidentSt.incidents tenantId incidentId with
  | none => Except.error incidentNotFoundError
  | some _ => do
    let _ ← assertAuthorized .timeline_add_event (membershipAuthContext membership)
    let event : TimelineEvent :=
      { id := newId, tenantId := tenantId, incidentId := incidentId,
        eventTime := eventTime, eventType := eventType, message := message,
        createdByUserId := userId, createdAt := now }
    pure (event, { incidentSt with timeline := incidentSt.timeline ++ [event] })

/-- IncidentService.createTask. -/
def createTask (tenantSt : TenantRepoState) (incidentSt : IncidentRepoState)
    (userId tenantId : String) (incidentId : Nat) (newId : Nat)
    (title description : String) (assigneeUserId : Option String) (dueAt : Option Nat)
    (now : Nat) : Except AppError (IncidentTask × IncidentRepoState) := do
  let membership ← requireMembership tenantSt userId tenantId
  match findIncidentById incidentSt.incidents tenantId incidentId with
  | none => Except.error incidentNotFoundError
  | some _ => do
    let _ ← assertAuthorized .tasks_create (membershipAuthContext membership)
    let task : IncidentTask :=
      { id := newId, tenantId := tenantId, incidentId := incidentId,
        title := title, description := description, status := .open,
        assigneeUserId := assigneeUserId, dueAt := dueAt,
        createdByUserId := userId, createdAt := now, updatedAt := now }
    pure (task, { incidentSt with tasks := incidentSt.tasks ++ [task] })

/-- IncidentService.createStatusUpdate: external audience requires
updates.publish_external, internal requires updates.publish_internal; note the
source supplies no incident-role resource context with either check. -/
def createStatusUpdate (tenantSt : TenantRepoState) (incidentSt : IncidentRepoState)
    (userId tenantId : String) (incidentId : Nat) (newId : Nat)
    (audience : StatusUpdateAudience) (message : String) (publishedAt now : Nat) :
    Except AppError (StatusUpdate × IncidentRepoState) := do
  let membership ← requireMembership tenantSt userId tenantId
  match findIncidentById incidentSt.incidents tenantId incidentId with
  | none => Except.error incidentNotFoundError
  | some _ => do
    if audience = .external then
      let _ ← assertAuthorized .updates_publish_external (membershipAuthContext membership)
    else
      let _ ← assertAuthorized .updates_publish_internal (membershipAuthContext membership)
    let statusUpdate : StatusUpdate :=
      { id := newId, tenantId := tenantId, incidentId := incidentId,
        audience := audience, message := message, createdByUserId := userId,
        publishedAt := publishedAt, createdAt := now }
    pure (statusUpdate,
      { incidentSt with statusUpdates := incidentSt.statusUpdates ++ [statusUpdate] })

/-- CreateIncidentInput (route-validated payload shape). -/
structure CreateIncidentInput where
  title : String
  description : String
  severity : IncidentSeverity
  startTime : Nat
  impactedServices : List String
deriving DecidableEq, Repr

/-- IncidentService.createIncident: membership, incidents.create policy, then
the repository insert (new incidents start declared with no end time and a
deduplicated service set). -/
def createIncident (tenantSt : TenantRepoState) (incidentSt : IncidentRepoState)
    (userId tenantId : String) (input : CreateIncidentInput) (newId now : Nat) :
    Except AppError (Incident × IncidentRepoState) := do
  let membership ← requireMembership tenantSt userId tenantId
  let _ ← assertAuthorized .incidents_create (membershipAuthContext membership)
  let incident : Incident :=
    { id := newId, tenantId := tenantId, title := input.title,
      description := input.description, severity := input.severity,
      status := .declared, startTime := input.startTime, endTime := none,
      declaredByUserId := userId,
      impactedServices := uniqueServices input.impactedServices,
      createdAt := now, updatedAt := now }
  pure (incident, { incidentSt with incidents := incidentSt.incidents ++ [incident] })

/-! Usage-quota model, from src/services/usage-service.ts and the in-memory
usage repository. -/

def WRITE_REQUEST_METRIC : String := "api.write_requests"

def QUOTA_WINDOW_HOURS : Nat := 24

structure UsageServiceConfig where
  defaultDailyWriteLimit : Nat
deriving DecidableEq, Repr

structure TenantUsageQuota where
  tenantId : String
  dailyWriteLimit : Nat
  createdAt : Nat
  updatedAt : Nat
deriving DecidableEq, Repr

structure UsageEvent where
  id : Nat
  tenantId : String
  actorUserId : Option String
  apiKeyId : Option String
  metric : String
  amount : Nat
  route : String
  traceId : Option String
  createdAt : Nat
deriving DecidableEq, Repr

structure UsageRepoState where
  quotas : List TenantUsageQuota
  usageEvents : List UsageEvent
deriving DecidableEq, Repr

structure UsageSummary where
  tenantId : String
  metric : String
  windowHours : Nat
  used : Nat
  limit : Nat
  remaining : Nat
deriving DecidableEq, Repr

structure ConsumeWriteQuotaInput where
  userId : String
  tenantId : String
  actorUserId : Option String
  apiKeyId : Option String
  route : String
  traceId : Option String
deriving DecidableEq, Repr

/-- InMemoryUsageRepository.getTenantQuota. -/
def getTenantQuota (st : UsageRepoState) (tenantId : String) : Option TenantUsageQuota :=
  st.quotas.find? (fun quota => quota.tenantId == tenantId)

/-- InMemoryUsageRepository.upsertTenantQuota. -/
def upsertTenantQuota (st : UsageRepoState) (tenantId : String) (dailyWriteLimit : Nat)
    (now : Nat) : TenantUsageQuota × UsageRepoState :=
  match getTenantQuota st tenantId with
  | none =>
    let quota : TenantUsageQuota :=
      { tenantId := tenantId, dailyWriteLimit := dailyWriteLimit,
        createdAt := now, updatedAt := now }
    (quota, { st with quotas := st.quotas ++ [quota] })
  | some existing =>
    let quota := { existing with dailyWriteLimit := dailyWriteLimit, updatedAt := now }
    (quota, { st with quotas := st.quotas.map (fun q =>
        if q.tenantId == tenantId then quota else q) })

/-- InMemoryUsageRepository.sumUsageSince: windowed sum over the append-only
event log. The JS window start `now - 24h` can go negative on small clocks;
natural-number truncation to zero selects the same events since createdAt is
never negative. -/
def sumUsageSince (st : UsageRepoState) (tenantId metric : String) (since : Nat) : Nat :=
  (st.usageEvents.filter (fun event =>
    event.tenantId == tenantId && event.metric == metric &&
      decide (since ≤ event.createdAt))).foldl (fun acc event => acc + event.amount) 0

/-- InMemoryUsageRepository.createUsageEvent: append to the log. -/
def createUsageEvent (st : UsageRepoState) (event : UsageEvent) :
    UsageEvent × UsageRepoState :=
  (event, { st with usageEvents := st.usageEvents ++ [event] })

/-- UsageService.ensureQuota: lazily materialize the tenant quota row with the
configured default limit. -/
def ensureQuota (cfg : UsageServiceConfig) (st : UsageRepoState) (tenantId : String)
    (now : Nat) : TenantUsageQuota × UsageRepoState :=
  match getTenantQuota st tenantId with
  | some existing => (existing, st)
  | none => upsertTenantQuota st tenantId cfg.defaultDailyWriteLimit now

/-- The quota-exceeded error with its (limit, used) payload. -/
def quotaExceededError (limit used : Nat) : AppError :=
  { status := 429, code := "QUOTA_EXCEEDED", message := "Tenant write quota exceeded.",
    details := some (limit, used) }

/-- UsageService.consumeWriteQuota: ensure the quota row, sum the 24h window,
reject when used + 1 exceeds the limit (writing nothing to the event log),
otherwise record one event of amount 1 and report the updated summary. -/
def consumeWriteQuota (cfg : UsageServiceConfig) (st : UsageRepoState)
    (input : ConsumeWriteQuotaInput) (now newEventId : Nat) :
    Except AppError UsageSummary × UsageRepoState :=
  let (quota, st1) := ensureQuota cfg st input.tenantId now
  let windowStart := now - QUOTA_WINDOW_HOURS * 60 * 60 * 1000
  let used := sumUsageSince st1 input.tenantId WRITE_REQUEST_METRIC windowStart
  if used + 1 > quota.dailyWriteLimit then
    (Except.error (quotaExceededError quota.dailyWriteLimit used), st1)
  else
    let (_, st2) := createUsageEvent st1
      { id := newEventId, tenantId := input.tenantId, actorUserId := input.actorUserId,
        apiKeyId := input.apiKeyId, metric := WRITE_REQUEST_METRIC, amount := 1,
        route := input.route, traceId := input.traceId, createdAt := now }
    let nextUsed := used + 1
    (Except.ok
      { tenantId := input.tenantId, metric := WRITE_REQUEST_METRIC,
        windowHours := QUOTA_WINDOW_HOURS, used := nextUsed,
        limit := quota.dailyWriteLimit,
        remaining := max (quota.dailyWriteLimit - nextUsed) 0 }, st2)

/-- UsageService.getUsageSummary: membership, billing.read policy, then the
windowed sum. -/
def getUsageSummary (cfg : UsageServiceConfig) (tenantSt : TenantRepoState)
    (st : UsageRepoState) (userId tenantId : String) (now : Nat) :
    Except AppError UsageSummary × UsageRepoState :=
  match getMembership tenantSt tenantId userId with
  | none => (Except.error tenantNotFoundError, st)
  | some membership =>
    match assertAuthorized .billing_read
        { userId := userId, tenantId := tenantId, orgRoles := [membership.role] } with
    | Except.error e => (Except.error e, st)
    | Except.ok _ =>
      let (quota, st1) := ensureQuota cfg st tenantId now
      let windowStart := now - QUOTA_WINDOW_HOURS * 60 * 60 * 1000
      let used := sumUsageSince st1 tenantId WRITE_REQUEST_METRIC windowStart
      (Except.ok
        { tenantId := tenantId, metric := WRITE_REQUEST_METRIC,
          windowHours := QUOTA_WINDOW_HOURS, used := used,
          limit := quota.dailyWriteLimit,
          remaining := max (quota.dailyWriteLimit - used) 0 }, st1)

/-- POST /v1/incidents handler from the incident routes: the quota limiter is
invoked first, then the service call (whose first steps are the membership
lookup and the policy decision); the audit recordSafely call is elided as it
never alters the response. The result carries the response and the final
incident and usage stores. -/
def postIncidentHandler (cfg : UsageServiceConfig) (tenantSt : TenantRepoState)
    (incidentSt : IncidentRepoState) (usageSt : UsageRepoState)
    (userId tenantId : String) (payload : CreateIncidentInput)
    (apiKeyId traceId : Option String) (now newEventId newIncidentId : Nat) :
    Except AppError Incident × IncidentRepoState × UsageRepoState :=
  match consumeWriteQuota cfg usageSt
      { userId := userId, tenantId := tenantId, actorUserId := some userId,
        apiKeyId := apiKeyId, route := "incidents.create", traceId := traceId }
      now newEventId with
  | (Except.error e, usageSt1) => (Except.error e, incidentSt, usageSt1)
  | (Except.ok _, usageSt1) =>
    match createIncident tenantSt incidentSt userId tenantId payload newIncidentId now with
    | Except.error e => (Except.error e, incidentSt, usageSt1)
    | Except.ok (incident, incidentSt1) => (Except.ok incident, incidentSt1, usageSt1)

/-- Scenario states for the dailyWriteLimit = 2 quota walkthrough. -/
def quotaScenarioInput : ConsumeWriteQuotaInput :=
  { userId := "u1", tenantId := "t1", actorUserId := some "u1", apiKeyId := none,
    route := "incidents.create", traceId := none }

def quotaScenarioTenantSt : TenantRepoState :=
  { tenants := [], memberships := [⟨"m1", "t1", "u1", .Owner, 0, 0⟩], invites := [] }

def quotaStep1 : Except AppError UsageSummary × UsageRepoState :=
  consumeWriteQuota ⟨2⟩ ⟨[], []⟩ quotaScenarioInput 1000 1

def quotaStep2 : Except AppError UsageSummary × UsageRepoState :=
  consumeWriteQuota ⟨2⟩ quotaStep1.2 quotaScenarioInput 1001 2

def quotaStep3 : Except AppError UsageSummary × UsageRepoState :=
  consumeWriteQuota ⟨2⟩ quotaStep2.2 quotaScenarioInput 1002 3

/-! API key model, from src/auth/auth-context.ts, the api-key repository and
service, and src/http/middlewares/api-key-auth.ts. The sha256 digest is an
arbitrary function parameter; the repository receives hashes, so no digest
property is needed. The stored display key prefix (first 16 characters of the
raw key) is omitted: no modelled path reads it. -/

inductive ApiKeyScope
  | read | write
deriving DecidableEq, Repr, Fintype

/-- API_KEY_SCOPES from src/auth/auth-context.ts. -/
def API_KEY_SCOPES : List ApiKeyScope := [.read, .write]

def API_KEY_PREFIX : String := "itk_"

inductive AuthType
  | session | api_key
deriving DecidableEq, Repr, Fintype

/-- RequestAuthContext from src/auth/auth-context.ts. -/
structure RequestAuthContext where
  authType : AuthType
  userId : String
  tenantId : Option String
  apiKeyId : Option String
  scopes : Option (List ApiKeyScope)
deriving DecidableEq, Repr

/-- hasWriteScope from src/auth/auth-context.ts. -/
def hasWriteScope (context : RequestAuthContext) : Bool :=
  if context.authType ≠ .api_key then
    true
  else
    match context.scopes with
    | none => false
    | some scopes => scopes.contains .write

/-- hasReadScope from src/auth/auth-context.ts. -/
def hasReadScope (context : RequestAuthContext) : Bool :=
  if context.authType ≠ .api_key then
    true
  else
    match context.scopes with
    | none => false
    | some scopes => scopes.contains .read

structure ServiceAccount where
  id : String
  tenantId : String
  name : String
  ownerUserId : String
  createdByUserId : String
  revokedAt : Option Nat
  createdAt : Nat
  updatedAt : Nat
deriving DecidableEq, Repr

structure ApiKeyRecord where
  id : String
  tenantId : String
  serviceAccountId : String
  name : String
  keyHash : String
  scopes : List ApiKeyScope
  createdByUserId : String
  lastUsedAt : Option Nat
  revokedAt : Option Nat
  createdAt : Nat
deriving DecidableEq, Repr

structure ApiKeyRepoState where
  serviceAccounts : List ServiceAccount
  apiKeys : List ApiKeyRecord
deriving DecidableEq, Repr

structure AuthenticatedApiKeyPrincipal where
  apiKeyId : String
  tenantId : String
  userId : String
  scopes : List ApiKeyScope
deriving DecidableEq, Repr

/-- InMemoryApiKeyRepository.findServiceAccountById. -/
def findServiceAccountById (st : ApiKeyRepoState) (tenantId serviceAccountId : String) :
    Option ServiceAccount :=
  match st.serviceAccounts.find? (fun record => record.id == serviceAccountId) with
  | none => none
  | some record =>
    if record.tenantId != tenantId || record.revokedAt != none then none else some record

/-- InMemoryApiKeyRepository.findActiveApiKeyByHash: hash-index lookup, null
for a missing hash, a revoked key, or a missing/revoked service account. -/
def findActiveApiKeyByHash (st : ApiKeyRepoState) (keyHash : String) :
    Option (ApiKeyRecord × ServiceAccount) :=
  match st.apiKeys.find? (fun record => record.keyHash == keyHash) with
  | none => none
  | some apiKey =>
    if apiKey.revokedAt != none then none
    else
      match st.serviceAccounts.find? (fun record => record.id == apiKey.serviceAccountId) with
      | none => none
      | some serviceAccount =>
        if serviceAccount.revokedAt != none then none else some (apiKey, serviceAccount)

/-- InMemoryApiKeyRepository.markApiKeyUsed. -/
def markApiKeyUsed (st : ApiKeyRepoState) (apiKeyId : String) (usedAt : Nat) :
    ApiKeyRepoState :=
  { st with apiKeys := st.apiKeys.map (fun record =>
      if record.id == apiKeyId then { record with lastUsedAt := some usedAt } else record) }

/-- InMemoryApiKeyRepository.revokeApiKey: null when absent or cross-tenant;
sets revokedAt only if not already revoked. -/
def revokeApiKey (st : ApiKeyRepoState) (tenantId apiKeyId : String) (revokedAt : Nat) :
    Option ApiKeyRecord × ApiKeyRepoState :=
  match st.apiKeys.find? (fun record => record.id == apiKeyId) with
  | none => (none, st)
  | some record =>
    if record.tenantId != tenantId then
      (none, st)
    else if record.revokedAt = none then
      let updated := { record with revokedAt := some revokedAt }
      (some updated, { st with apiKeys := st.apiKeys.map (fun r =>
        if r.id == apiKeyId then updated else r) })
    else
      (some record, st)

/-- normalizeScopes from the api-key service: an empty request defaults to the
read scope; duplicates are removed keeping first occurrences (JS Set order). -/
def normalizeScopes (scopes : List ApiKeyScope) : List ApiKeyScope :=
  let values : List ApiKeyScope := if scopes.length = 0 then [.read] else scopes
  dedupFirst values

/-- ensureValidScopeSet from the api-key service: every requested scope must
be a member of API_KEY_SCOPES (vacuously true for an empty request, which is
therefore not rejected). -/
def ensureValidScopeSet (scopes : List ApiKeyScope) : Except AppError Unit :=
  if scopes.all (fun scope => API_KEY_SCOPES.contains scope) then
    Except.ok ()
  else
    Except.error
      { status := 400, code := "API_KEY_SCOPE_INVALID",
        message := "One or more API key scopes are invalid." }

def serviceAccountNotFoundError : AppError :=
  { status := 404, code := "SERVICE_ACCOUNT_NOT_FOUND", message := "Service account not found." }

def apiKeyNameInvalidError : AppError :=
  { status := 400, code := "API_KEY_NAME_INVALID",
    message := "API key name must be at least 3 characters long." }

/-- ApiKeyService.createApiKey: membership and api_keys.manage policy, service
account lookup, name validation, scope validation, then the repository insert
with the sha256 hash of the itk_-tagged secret and the normalized scope set.
The random secret part and new record id are parameters. -/
def createApiKey (hash : String → String) (tenantSt : TenantRepoState)
    (st : ApiKeyRepoState) (userId tenantId serviceAccountId name : String)
    (scopes : List ApiKeyScope) (secretPart newId : String) (now : Nat) :
    Except AppError (ApiKeyRecord × String × ApiKeyRepoState) := do
  let membership ← requireMembership tenantSt userId tenantId
  let _ ← assertAuthorized .api_keys_manage (membershipAuthContext membership)
  match findServiceAccountById st tenantId serviceAccountId with
  | none => Except.error serviceAccountNotFoundError
  | some serviceAccount => do
    let normalizedName := trimStr name
    if normalizedName.length < 3 then
      Except.error apiKeyNameInvalidError
    else do
      let _ ← ensureValidScopeSet scopes
      let rawKey := API_KEY_PREFIX ++ secretPart
      let normalizedScopes := normalizeScopes scopes
      let apiKey : ApiKeyRecord :=
        { id := newId, tenantId := tenantId, serviceAccountId := serviceAccount.id,
          name := normalizedName, keyHash := hash rawKey, scopes := normalizedScopes,
          createdByUserId := userId, lastUsedAt := none, revokedAt := none,
          createdAt := now }
      pure (apiKey, rawKey, { st with apiKeys := st.apiKeys ++ [apiKey] })

/-- ApiKeyService.authenticateApiKey: prefix check, active-key lookup by hash,
owner membership lookup, then the best-effort last-used update. -/
def authenticateApiKey (hash : String → String) (st : ApiKeyRepoState)
    (tenantSt : TenantRepoState) (rawKey : String) (now : Nat) :
    Option AuthenticatedApiKeyPrincipal × ApiKeyRepoState :=
  if !(API_KEY_PREFIX.data.isPrefixOf rawKey.data) then
    (none, st)
  else
    let keyHash := hash rawKey
    match findActiveApiKeyByHash st keyHash with
    | none => (none, st)
    | some (apiKey, serviceAccount) =>
      match getMembership tenantSt apiKey.tenantId serviceAccount.ownerUserId with
      | none => (none, st)
      | some _ =>
        (some
          { apiKeyId := apiKey.id, tenantId := apiKey.tenantId,
            userId := serviceAccount.ownerUserId, scopes := apiKey.scopes },
         markApiKeyUsed st apiKey.id now)

def apiKeyInvalidError : AppError :=
  { status := 401, code := "AUTH_INVALID_API_KEY", message := "API key is invalid or revoked." }

def apiKeyScopeDeniedError : AppError :=
  { status := 403, code := "API_KEY_SCOPE_DENIED",
    message := "API key does not include the required scope." }

/-- SAFE_METHODS from src/http/middlewares/api-key-auth.ts. -/
def SAFE_METHODS : List String := ["GET", "HEAD", "OPTIONS"]

/-- Outcome of the api-key middleware: pass through without touching the
request, fail the request, or attach the api-key auth context and continue. -/
inductive MiddlewareOutcome
  | skipped
  | failed (e : AppError)
  | proceed (ctx : RequestAuthContext)
deriving DecidableEq, Repr

/-- apiKeyAuthMiddleware from src/http/middlewares/api-key-auth.ts. -/
def apiKeyAuthMiddleware (hash : String → String) (st : ApiKeyRepoState)
    (tenantSt : TenantRepoState) (header : Option String) (method : String) (now : Nat) :
    MiddlewareOutcome × ApiKeyRepoState :=
  match header with
  | none => (.skipped, st)
  | some rawKey =>
    if rawKey.length = 0 then
      (.skipped, st)
    else
      match authenticateApiKey hash st tenantSt rawKey now with
      | (none, st1) => (.failed apiKeyInvalidError, st1)
      | (some principal, st1) =>
        let authContext : RequestAuthContext :=
          { authType := .api_key, userId := principal.userId,
            tenantId := some principal.tenantId, apiKeyId := some principal.apiKeyId,
            scopes := some principal.scopes }
        let isSafeMethod := SAFE_METHODS.contains method
        let scopeAllowed :=
          if isSafeMethod then hasReadScope authContext else hasWriteScope authContext
        if !scopeAllowed then
          (.failed apiKeyScopeDeniedError, st1)
        else
          (.proceed authContext, st1)

/-! Invite model, from InMemoryTenantRepository.acceptInvite and
TenantService.acceptInvite. -/

/-- Lowercasing of the source's `toLowerCase()` email comparison. -/
def lowerStr (s : String) : String := ⟨s.data.map Char.toLower⟩

structure User where
  id : String
  email : String
deriving DecidableEq, Repr

/-- InMemoryTenantRepository.acceptInvite: token-hash lookup, one-time-use and
expiry checks, case-insensitive email match, tenant existence; on success the
invite is stamped accepted and the membership is created, or its role
overwritten if one already exists. Every failure returns none before any
mutation, so the caller's state is untouched. -/
def acceptInvite (st : TenantRepoState) (tokenHash userId userEmail : String)
    (now : Nat) (newMembershipId : String) :
    Option (Tenant × Membership × TenantInvite × TenantRepoState) :=
  match st.invites.find? (fun invite => invite.tokenHash == tokenHash) with
  | none => none
  | some invite =>
    if invite.acceptedAt != none || decide (invite.expiresAt < now) then
      none
    else if lowerStr invite.email != lowerStr userEmail then
      none
    else
      match st.tenants.find? (fun tenant => tenant.id == invite.tenantId) with
      | none => none
      | some tenant =>
        let acceptedInvite :=
          { invite with acceptedAt := some now, acceptedByUserId := some userId }
        let membership : Membership :=
          match getMembership st invite.tenantId userId with
          | none =>
            { id := newMembershipId, tenantId := invite.tenantId, userId := userId,
              role := invite.role, createdAt := now, updatedAt := now }
          | some existing => { existing with role := invite.role, updatedAt := now }
        let memberships :=
          match getMembership st invite.tenantId userId with
          | none => st.memberships ++ [membership]
          | some _ => st.memberships.map (fun m =>
              if m.tenantId == invite.tenantId && m.userId == userId then membership else m)
        some (tenant, membership, acceptedInvite,
          { st with
            invites := st.invites.map (fun i =>
              if i.id == invite.id then acceptedInvite else i)
            memberships := memberships })

def authRequiredError : AppError :=
  { status := 401, code := "AUTH_REQUIRED", message := "Authentication is required." }

/-- TenantService.acceptInvite: resolve the accepting user, hash the raw
token, delegate to the repository, and surface a null result as the 400
INVITE_INVALID error. -/
def tenantServiceAcceptInvite (hash : String → String) (users : List User)
    (st : TenantRepoState) (userId token : String) (now : Nat)
    (newMembershipId : String) : Except AppError (Tenant × Membership × TenantRepoState) :=
  match users.find? (fun user => user.id == userId) with
  | none => Except.error authRequiredError
  | some user =>
    match acceptInvite st (hash token) userId user.email now newMembershipId with
    | none => Except.error inviteInvalidError
    | some (tenant, membership, _, st1) => Except.ok (tenant, membership, st1)

/-- Scenario state for the invite-expiry boundary: a pending invite whose
expiresAt equals the acceptance instant. -/
def inviteBoundarySt : TenantRepoState :=
  { tenants := [⟨"t1", "Acme", "acme-abc123", "u0", 0, 0⟩],
    memberships := [],
    invites := [⟨"i1", "t1", "alice@example.com", .Responder, "tok-hash", "u0",
      100, none, none, 0⟩] }

/-- Scenario state for the api-key middleware: one active read-only key whose
hash (under the identity digest used in witnesses) is the raw key itself. -/
def apiKeyScenarioSt : ApiKeyRepoState :=
  { serviceAccounts := [⟨"sa1", "t1", "Bot", "u1", "u1", none, 0, 0⟩],
    apiKeys := [⟨"k1", "t1", "sa1", "Bot key", "itk_abc", [.read], "u1", none, none, 0⟩] }

/-! Cursor pagination, from IncidentService.listIncidents, the in-memory
incident repository (compareDescending / isAfterCursor), and the audit-log
query service with its in-memory repository, whose listing algorithm is the
same. The base64url JSON cursor codec (parseCursor / encodeCursor) is
modelled as the identity on the decoded record; cursor syntax errors are
outside the pagination claims. -/

structure IncidentListCursor where
  createdAt : Nat
  id : Nat
deriving DecidableEq, Repr

/-- Order given by the compareDescending comparator of the in-memory incident
repository: left sorts no later than right iff compareDescending(left, right)
is at most zero, i.e. createdAt descending with id descending as tie-break. -/
def compareDescendingLE (left right : Incident) : Prop :=
  right.createdAt < left.createdAt ∨
    (left.createdAt = right.createdAt ∧ right.id ≤ left.id)

instance : DecidableRel compareDescendingLE := fun l r => by
  unfold compareDescendingLE
  infer_instance

instance : IsTotal Incident compareDescendingLE :=
  ⟨by intro a b; unfold compareDescendingLE; omega⟩

instance : IsTrans Incident compareDescendingLE :=
  ⟨by intro a b c; unfold compareDescendingLE; omega⟩

/-- isAfterCursor from the in-memory incident repository: strictly after the
cursor row in the (createdAt DESC, id DESC) order. -/
def isAfterCursor (incident : Incident) (cursor : IncidentListCursor) : Bool :=
  if incident.createdAt < cursor.createdAt then
    true
  else if cursor.createdAt < incident.createdAt then
    false
  else
    decide (incident.id < cursor.id)

/-- InMemoryIncidentRepository.listIncidents: tenant filter, descending sort,
cursor filter, page slice. -/
def repoListIncidents (incidents : List Incident) (tenantId : String) (limit : Nat)
    (after : Option IncidentListCursor) : List Incident :=
  ((List.insertionSort compareDescendingLE
      (incidents.filter (fun incident => incident.tenantId == tenantId))).filter
    (fun incident =>
      match after with
      | none => true
      | some cursor => isAfterCursor incident cursor)).take limit

structure IncidentListPage where
  incidents : List Incident
  nextCursor : Option IncidentListCursor
deriving DecidableEq, Repr

structure IncidentServiceConfig where
  listDefaultLimit : Nat
  listMaxLimit : Nat
deriving DecidableEq, Repr

def paginationLimitInvalidError : AppError :=
  { status := 400, code := "PAGINATION_LIMIT_INVALID",
    message := "Limit must be a positive integer." }

/-- IncidentService.normalizeLimit (naturals model the integers accepted by
the route validator; zero is the non-positive rejection case). -/
def normalizeLimit (config : IncidentServiceConfig) (limit : Option Nat) :
    Except AppError Nat :=
  match limit with
  | none => Except.ok config.listDefaultLimit
  | some l =>
    if l = 0 then Except.error paginationLimitInvalidError
    else Except.ok (min l config.listMaxLimit)

/-- IncidentService.listIncidents: membership, incidents.read, limit
normalization, repository query, and the short-page rule for nextCursor. -/
def listIncidents (config : IncidentServiceConfig) (tenantSt : TenantRepoState)
    (incidentSt : IncidentRepoState) (userId tenantId : String) (limit : Option Nat)
    (cursor : Option IncidentListCursor) : Except AppError IncidentListPage := do
  let membership ← requireMembership tenantSt userId tenantId
  let _ ← assertAuthorized .incidents_read (membershipAuthContext membership)
  let normalizedLimit ← normalizeLimit config limit
  let incidents := repoListIncidents incidentSt.incidents tenantId normalizedLimit cursor
  pure
    { incidents := incidents,
      nextCursor :=
        if incidents.length < normalizedLimit ∨ incidents.getLast? = none then none
        else
          match incidents.getLast? with
          | none => none
          | some last => some { createdAt := last.createdAt, id := last.id } }

structure AuditLogEvent where
  id : Nat
  tenantId : Option String
  actorUserId : Option String
  action : String
  targetType : Option String
  targetId : Option String
  metadata : List (String × String)
  traceId : Option String
  ipAddress : Option String
  userAgent : Option String
  createdAt : Nat
deriving DecidableEq, Repr

structure AuditLogListCursor where
  createdAt : Nat
  id : Nat
deriving DecidableEq, Repr

/-- The same descending comparator used by the in-memory audit-log
repository's listEventsForTenant sort. -/
def auditDescLE (left right : AuditLogEvent) : Prop :=
  right.createdAt < left.createdAt ∨
    (left.createdAt = right.createdAt ∧ right.id ≤ left.id)

instance : DecidableRel auditDescLE := fun l r => by
  unfold auditDescLE
  infer_instance

instance : IsTotal AuditLogEvent auditDescLE :=
  ⟨by intro a b; unfold auditDescLE; omega⟩

instance : IsTrans AuditLogEvent auditDescLE :=
  ⟨by intro a b c; unfold auditDescLE; omega⟩

/-- The after-cursor predicate inlined in listEventsForTenant. -/
def isAfterAuditCursor (event : AuditLogEvent) (cursor : AuditLogListCursor) : Bool :=
  if event.createdAt < cursor.createdAt then
    true
  else if cursor.createdAt < event.createdAt then
    false
  else
    decide (event.id < cursor.id)

/-- InMemoryAuditLogRepository.listEventsForTenant. -/
def repoListAuditEvents (events : List AuditLogEvent) (tenantId : String) (limit : Nat)
    (after : Option AuditLogListCursor) : List AuditLogEvent :=
  ((List.insertionSort auditDescLE
      (events.filter (fun event => event.tenantId == some tenantId))).filter
    (fun event =>
      match after with
      | none => true
      | some cursor => isAfterAuditCursor event cursor)).take limit

structure AuditLogListPage where
  events : List AuditLogEvent
  nextCursor : Option AuditLogListCursor
deriving DecidableEq, Repr

structure AuditLogQueryServiceConfig where
  listDefaultLimit : Nat
  listMaxLimit : Nat
deriving DecidableEq, Repr

def auditNormalizeLimit (config : AuditLogQueryServiceConfig) (limit : Option Nat) :
    Except AppError Nat :=
  match limit with
  | none => Except.ok config.listDefaultLimit
  | some l =>
    if l = 0 then Except.error paginationLimitInvalidError
    else Except.ok (min l config.listMaxLimit)

/-- AuditLogQueryService.listEvents: membership, audit_log.read, limit
normalization, repository query, short-page rule. -/
def listAuditEvents (config : AuditLogQueryServiceConfig) (tenantSt : TenantRepoState)
    (auditEvents : List AuditLogEvent) (userId tenantId : String) (limit : Option Nat)
    (cursor : Option AuditLogListCursor) : Except AppError AuditLogListPage := do
  let membership ← requireMembership tenantSt userId tenantId
  let _ ← assertAuthorized .audit_log_read (membershipAuthContext membership)
  let normalizedLimit ← auditNormalizeLimit config limit
  let events := repoListAuditEvents auditEvents tenantId normalizedLimit cursor
  pure
    { events := events,
      nextCursor :=
        if events.length < normalizedLimit ∨ events.getLast? = none then none
        else
          match events.getLast? with
          | none => none
          | some last => some { createdAt := last.createdAt, id := last.id } }

end IncidentTracker

namespace IncidentTracker

/-! Theorems for claims C2 and C3. -/

/-- C2: every policy action whose rule carries responderIncidentRoles is one
of updates.publish_external (restricted to IC, CL), incidents.assign_incident_roles
and postmortems.publish (restricted to IC); for such an action a caller whose
only org role is Responder is authorized iff the supplied incident-role set
intersects the rule's responderIncidentRoles, while Owner and Admin pass with
any (or no) resource context; in particular a Responder with only SME cannot
publish an external status update while one with CL or IC can. -/
theorem responder_incident_role_gate :
    ((POLICY_RULES .updates_publish_external).responderIncidentRoles = some [.IC, .CL]
      ∧ (POLICY_RULES .incidents_assign_incident_roles).responderIncidentRoles = some [.IC]
      ∧ (POLICY_RULES .postmortems_publish).responderIncidentRoles = some [.IC]
      ∧ ∀ a : PolicyAction, (POLICY_RULES a).responderIncidentRoles ≠ none →
          (a = .updates_publish_external ∨ a = .incidents_assign_incident_roles ∨
            a = .postmortems_publish))
    ∧ (∀ (a : PolicyAction) (rs : List IncidentRole) (u t : String),
        (POLICY_RULES a).responderIncidentRoles = some rs →
          (∀ irs : List IncidentRole,
            ((authorize a ⟨u, t, [.Responder]⟩ (some ⟨some irs⟩)).allowed = true ↔
              ∃ r ∈ irs, r ∈ rs))
          ∧ ∀ resource, (authorize a ⟨u, t, [.Owner]⟩ resource).allowed = true
              ∧ (authorize a ⟨u, t, [.Admin]⟩ resource).allowed = true)
    ∧ (authorize .updates_publish_external ⟨"u", "t", [.Responder]⟩
        (some ⟨some [.SME]⟩)).allowed = false
    ∧ (authorize .updates_publish_external ⟨"u", "t", [.Responder]⟩
        (some ⟨some [.CL]⟩)).allowed = true
    ∧ (authorize .updates_publish_external ⟨"u", "t", [.Responder]⟩
        (some ⟨some [.IC]⟩)).allowed = true := by
  refine ⟨⟨rfl, rfl, rfl, by decide⟩, ?_, by decide, by decide, by decide⟩
  intro a rs u t hrs
  constructor
  · intro irs
    cases a <;> simp only [POLICY_RULES, Option.some.injEq, reduceCtorEq] at hrs <;>
      subst hrs <;>
      cases irs <;>
      simp [authorize, authorizeLoop, hasRequiredIncidentRole, POLICY_RULES,
        List.any_eq_true] <;>
      (split <;> simp_all [eq_comm])
  · intro resource
    cases a <;> simp only [POLICY_RULES, reduceCtorEq] at hrs <;>
      simp [authorize, authorizeLoop, hasRequiredIncidentRole, POLICY_RULES]

/-- C2 witness: instantiates the gate theorem at updates.publish_external for
a Responder whose incident-role set is exactly the comms lead. -/
theorem responder_incident_role_gate_witness :
    (authorize .updates_publish_external ⟨"u1", "t1", [.Responder]⟩
      (some ⟨some [.CL]⟩)).allowed = true := by
  have h := (responder_incident_role_gate.2.1 .updates_publish_external [.IC, .CL]
    "u1" "t1" rfl).1 [.CL]
  exact h.mpr ⟨.CL, by decide, by decide⟩

/-- C3: an incident status update succeeds exactly when the pair is an edge
of the declared transition table or the two statuses are equal (self
transition, including closed to closed, is a no-op success); every other
pair fails with the 400 INCIDENT_STATUS_TRANSITION_INVALID error whose
message names the source and target statuses. -/
theorem status_transition_table :
    ∀ current next : IncidentStatus,
      (ensureAllowedStatusTransition current next = Except.ok () ↔
        (current = next ∨ (current, next) ∈ ([
          (.declared, .investigating), (.declared, .mitigating),
          (.declared, .monitoring), (.declared, .resolved),
          (.investigating, .mitigating), (.investigating, .monitoring),
          (.investigating, .resolved),
          (.mitigating, .monitoring), (.mitigating, .resolved),
          (.monitoring, .resolved),
          (.resolved, .closed)] : List (IncidentStatus × IncidentStatus))))
      ∧ (ensureAllowedStatusTransition current next ≠ Except.ok () →
          ensureAllowedStatusTransition current next = Except.error
            { status := 400, code := "INCIDENT_STATUS_TRANSITION_INVALID",
              message := "Cannot move incident from " ++ statusName current ++
                " to " ++ statusName next ++ "." }) := by
  decide

/-! Theorems for claims C1 and C4. -/

lemma findIncidentById_eq_none (incidents : List Incident) (tenantId : String)
    (incidentId : Nat)
    (h : ∀ inc ∈ incidents, inc.id = incidentId → inc.tenantId ≠ tenantId) :
    findIncidentById incidents tenantId incidentId = none := by
  unfold findIncidentById
  cases hf : incidents.find? (fun record => record.id == incidentId) with
  | none => rfl
  | some record =>
    have hmem : record ∈ incidents := List.mem_of_find?_eq_some hf
    have hid : record.id = incidentId := by
      have := List.find?_some hf
      simpa using this
    have hten := h record hmem hid
    simp [hten]

lemma findIncidentById_some_elim {incidents : List Incident} {tenantId : String}
    {incidentId : Nat} {inc : Incident}
    (h : findIncidentById incidents tenantId incidentId = some inc) :
    incidents.find? (fun record => record.id == incidentId) = some inc ∧
      inc.tenantId = tenantId := by
  unfold findIncidentById at h
  cases hf : incidents.find? (fun record => record.id == incidentId) with
  | none => rw [hf] at h; cases h
  | some record =>
    rw [hf] at h
    by_cases hten : record.tenantId = tenantId
    · have heq : record = inc := by simpa [hten] using h
      subst heq
      exact ⟨rfl, hten⟩
    · simp [hten] at h

lemma authorize_allowed_eq_loop (a : PolicyAction) (ctx : AuthorizationContext)
    (res : Option AuthorizationResourceContext) :
    (authorize a ctx res).allowed = authorizeLoop (POLICY_RULES a) res ctx.orgRoles := by
  simp only [authorize]
  split <;> simp_all

lemma authorize_update_eq_resolve (ctx : AuthorizationContext)
    (res : Option AuthorizationResourceContext) :
    (authorize .incidents_update ctx res).allowed =
      (authorize .incidents_resolve ctx res).allowed := by
  rw [authorize_allowed_eq_loop, authorize_allowed_eq_loop]
  rfl

lemma assertAuthorized_of_allowed {a : PolicyAction} {ctx : AuthorizationContext}
    {res : Option AuthorizationResourceContext}
    (h : (authorize a ctx res).allowed = true) :
    assertAuthorized a ctx res = Except.ok () := by
  simp only [assertAuthorized]
  rw [h]
  simp

lemma assertAuthorized_of_denied {a : PolicyAction} {ctx : AuthorizationContext}
    {res : Option AuthorizationResourceContext}
    (h : (authorize a ctx res).allowed = false) :
    assertAuthorized a ctx res = Except.error
      { status := 403, code := "PERMISSION_DENIED",
        message := (authorize a ctx res).reason.getD "Permission denied." } := by
  simp only [assertAuthorized]
  rw [h]
  simp

/-- C1: with a membership in the active tenant, every incident-scoped lookup
path (get, update, timeline-event creation, task creation, status-update
creation) returns the one INCIDENT_NOT_FOUND 404 error whenever the incident
id is absent from the store or present only under another tenant — the two
cases are indistinguishable; and switching the active tenant without a
membership row fails with the 404 TENANT_NOT_FOUND error, never a 403
permission-denied-class error. -/
theorem cross_tenant_lookup_not_found :
    (∀ (tenantSt : TenantRepoState) (incidentSt : IncidentRepoState)
      (userId tenantId : String) (incidentId : Nat) (input : UpdateIncidentInput)
      (newId eventTime publishedAt now : Nat) (eventType message title description : String)
      (assigneeUserId : Option String) (dueAt : Option Nat)
      (audience : StatusUpdateAudience),
      (getMembership tenantSt tenantId userId).isSome = true →
      (∀ inc ∈ incidentSt.incidents, inc.id = incidentId → inc.tenantId ≠ tenantId) →
        getIncident tenantSt incidentSt userId tenantId incidentId =
          Except.error incidentNotFoundError
        ∧ updateIncident tenantSt incidentSt userId tenantId incidentId input now =
            Except.error incidentNotFoundError
        ∧ addTimelineEvent tenantSt incidentSt userId tenantId incidentId newId eventTime
            eventType message now = Except.error incidentNotFoundError
        ∧ createTask tenantSt incidentSt userId tenantId incidentId newId title description
            assigneeUserId dueAt now = Except.error incidentNotFoundError
        ∧ createStatusUpdate tenantSt incidentSt userId tenantId incidentId newId audience
            message publishedAt now = Except.error incidentNotFoundError)
    ∧ (∀ (tenantSt : TenantRepoState) (userId tenantId : String),
        getMembership tenantSt tenantId userId = none →
          switchActiveTenant tenantSt userId tenantId = Except.error tenantNotFoundError)
    ∧ tenantNotFoundError.status = 404 ∧ incidentNotFoundError.status = 404
    ∧ tenantNotFoundError.status ≠ 403 := by
  refine ⟨?_, ?_, rfl, rfl, by decide⟩
  · intro tenantSt incidentSt userId tenantId incidentId input newId eventTime publishedAt
      now eventType message title description assigneeUserId dueAt audience hmem hforeign
    obtain ⟨m, hm⟩ := Option.isSome_iff_exists.mp hmem
    have hreq : requireMembership tenantSt userId tenantId = Except.ok m := by
      unfold requireMembership
      rw [hm]
    have hfind := findIncidentById_eq_none incidentSt.incidents tenantId incidentId hforeign
    refine ⟨?_, ?_, ?_, ?_, ?_⟩ <;>
      simp [getIncident, updateIncident, addTimelineEvent, createTask, createStatusUpdate,
        bind, Except.bind, hreq, hfind]
  · intro tenantSt userId tenantId hnone
    have hreq : requireMembership tenantSt userId tenantId =
        Except.error tenantNotFoundError := by
      unfold requireMembership
      rw [hnone]
    simp [switchActiveTenant, bind, Except.bind, hreq]

/-- C1 witness: a store whose only incident lives in tenant t2, probed from
tenant t1 by a member of t1; and a tenant switch by a user with no membership
row. -/
theorem cross_tenant_lookup_not_found_witness :
    getIncident
      ⟨[], [⟨"m1", "t1", "u1", .Owner, 0, 0⟩], []⟩
      ⟨[⟨1, "t2", "outage", "", .SEV1, .declared, 0, none, "u2", [], 0, 0⟩], [], [], []⟩
      "u1" "t1" 1 = Except.error incidentNotFoundError
    ∧ switchActiveTenant ⟨[], [⟨"m1", "t1", "u1", .Owner, 0, 0⟩], []⟩ "u1" "t9" =
        Except.error tenantNotFoundError := by
  constructor
  · exact (cross_tenant_lookup_not_found.1
      ⟨[], [⟨"m1", "t1", "u1", .Owner, 0, 0⟩], []⟩
      ⟨[⟨1, "t2", "outage", "", .SEV1, .declared, 0, none, "u2", [], 0, 0⟩], [], [], []⟩
      "u1" "t1" 1 {} 0 0 0 0 "" "" "" "" none none .internal
      (by decide) (by decide)).1
  · exact cross_tenant_lookup_not_found.2.1
      ⟨[], [⟨"m1", "t1", "u1", .Owner, 0, 0⟩], []⟩ "u1" "t9" (by decide)

lemma updateIncident_ok_iff
    {tenantSt : TenantRepoState} {incidentSt : IncidentRepoState}
    {userId tenantId : String} {incidentId : Nat} {m : Membership} {inc : Incident}
    (input : UpdateIncidentInput) (now : Nat)
    (hm : getMembership tenantSt tenantId userId = some m)
    (hfind : findIncidentById incidentSt.incidents tenantId incidentId = some inc) :
    (∃ result, updateIncident tenantSt incidentSt userId tenantId incidentId input now =
        Except.ok result) ↔
      ((match input.status with
        | some s => ensureAllowedStatusTransition inc.status s = Except.ok () ∧
            (if s = .resolved ∨ s = .closed then
              (authorize .incidents_resolve (membershipAuthContext m)).allowed = true
            else (authorize .incidents_update (membershipAuthContext m)).allowed = true)
        | none => (authorize .incidents_update (membershipAuthContext m)).allowed = true)
      ∧ (input.severity ≠ none →
          (authorize .incidents_change_severity (membershipAuthContext m)).allowed = true)) := by
  have hreq : requireMembership tenantSt userId tenantId = Except.ok m := by
    unfold requireMembership
    rw [hm]
  obtain ⟨hfd, hten⟩ := findIncidentById_some_elim hfind
  have hrepo : repoUpdateIncident incidentSt.incidents tenantId incidentId input now =
      (some (applyIncidentUpdate inc input now),
        incidentSt.incidents.map (fun r =>
          if r.id == incidentId then applyIncidentUpdate inc input now else r)) := by
    unfold repoUpdateIncident
    rw [hfd]
    simp [hten]
  cases hst : input.status with
  | none =>
    cases hau : (authorize .incidents_update (membershipAuthContext m)).allowed with
    | false =>
      simp [updateIncident, bind, Except.bind, hreq, hfind, hst,
        assertAuthorized_of_denied hau]
    | true =>
      by_cases hsevn : input.severity = none
      · simp [updateIncident, bind, Except.bind, pure, Except.pure, hreq, hfind, hst,
          assertAuthorized_of_allowed hau, hsevn, hrepo]
      · cases hac : (authorize .incidents_change_severity (membershipAuthContext m)).allowed with
        | false =>
          simp [updateIncident, bind, Except.bind, pure, Except.pure, hreq, hfind, hst,
            assertAuthorized_of_allowed hau, assertAuthorized_of_denied hac, hsevn, hrepo]
        | true =>
          simp [updateIncident, bind, Except.bind, pure, Except.pure, hreq, hfind, hst,
            assertAuthorized_of_allowed hau, assertAuthorized_of_allowed hac, hsevn, hrepo]
  | some s =>
    cases htr : ensureAllowedStatusTransition inc.status s with
    | error e =>
      simp [updateIncident, bind, Except.bind, hreq, hfind, hst, htr]
    | ok u =>
      cases u
      by_cases hsc : s = .resolved ∨ s = .closed
      · cases har : (authorize .incidents_resolve (membershipAuthContext m)).allowed with
        | false =>
          simp [updateIncident, bind, Except.bind, hreq, hfind, hst, htr, hsc,
            assertAuthorized_of_denied har]
        | true =>
          by_cases hsevn : input.severity = none
          · simp [updateIncident, bind, Except.bind, pure, Except.pure, hreq, hfind, hst,
              htr, hsc, assertAuthorized_of_allowed har, hsevn, hrepo]
          · cases hac : (authorize .incidents_change_severity
                (membershipAuthContext m)).allowed with
            | false =>
              simp [updateIncident, bind, Except.bind, pure, Except.pure, hreq, hfind,
                hst, htr, hsc, assertAuthorized_of_allowed har,
                assertAuthorized_of_denied hac, hsevn, hrepo]
            | true =>
              simp [updateIncident, bind, Except.bind, pure, Except.pure, hreq, hfind,
                hst, htr, hsc, assertAuthorized_of_allowed har,
                assertAuthorized_of_allowed hac, hsevn, hrepo]
      · cases hau : (authorize .incidents_update (membershipAuthContext m)).allowed with
        | false =>
          simp [updateIncident, bind, Except.bind, hreq, hfind, hst, htr, hsc,
            assertAuthorized_of_denied hau]
        | true =>
          by_cases hsevn : input.severity = none
          · simp [updateIncident, bind, Except.bind, pure, Except.pure, hreq, hfind, hst,
              htr, hsc, assertAuthorized_of_allowed hau, hsevn, hrepo]
          · cases hac : (authorize .incidents_change_severity
                (membershipAuthContext m)).allowed with
            | false =>
              simp [updateIncident, bind, Except.bind, pure, Except.pure, hreq, hfind,
                hst, htr, hsc, assertAuthorized_of_allowed hau,
                assertAuthorized_of_denied hac, hsevn, hrepo]
            | true =>
              simp [updateIncident, bind, Except.bind, pure, Except.pure, hreq, hfind,
                hst, htr, hsc, assertAuthorized_of_allowed hau,
                assertAuthorized_of_allowed hac, hsevn, hrepo]

/-- C4: on updateIncident with membership and incident in place, a requested
status of resolved or closed succeeds only if the caller is authorized for
incidents.resolve and also for the base incidents.update (the policy table
makes the two rules identical, so the code's resolve-branch check enforces
both); a severity change succeeds only if the caller additionally holds
incidents.change_severity together with the base update permission; and an
update touching neither status nor severity succeeds exactly when
incidents.update alone is authorized. -/
theorem update_permissions_layering :
    ∀ (tenantSt : TenantRepoState) (incidentSt : IncidentRepoState)
      (userId tenantId : String) (incidentId : Nat) (m : Membership) (inc : Incident)
      (input : UpdateIncidentInput) (now : Nat),
      getMembership tenantSt tenantId userId = some m →
      findIncidentById incidentSt.incidents tenantId incidentId = some inc →
        (∀ s, input.status = some s → (s = .resolved ∨ s = .closed) →
          ∀ result, updateIncident tenantSt incidentSt userId tenantId incidentId input now =
              Except.ok result →
            (authorize .incidents_resolve (membershipAuthContext m)).allowed = true ∧
            (authorize .incidents_update (membershipAuthContext m)).allowed = true)
        ∧ (input.severity ≠ none →
            ∀ result, updateIncident tenantSt incidentSt userId tenantId incidentId input now =
                Except.ok result →
              (authorize .incidents_change_severity (membershipAuthContext m)).allowed = true ∧
              (authorize .incidents_update (membershipAuthContext m)).allowed = true)
        ∧ (input.status = none → input.severity = none →
            ((∃ result, updateIncident tenantSt incidentSt userId tenantId incidentId input
                now = Except.ok result) ↔
              (authorize .incidents_update (membershipAuthContext m)).allowed = true)) := by
  intro tenantSt incidentSt userId tenantId incidentId m inc input now hm hfind
  have hiff := updateIncident_ok_iff input now hm hfind
  refine ⟨?_, ?_, ?_⟩
  · intro s hs hres result hok
    have hconj := hiff.mp ⟨result, hok⟩
    rw [hs] at hconj
    have hgate := hconj.1.2
    rw [if_pos hres] at hgate
    exact ⟨hgate, by rw [authorize_update_eq_resolve]; exact hgate⟩
  · intro hsev result hok
    have hconj := hiff.mp ⟨result, hok⟩
    refine ⟨hconj.2 hsev, ?_⟩
    cases hst : input.status with
    | none =>
      rw [hst] at hconj
      exact hconj.1
    | some s =>
      rw [hst] at hconj
      by_cases hsc : s = .resolved ∨ s = .closed
      · have hgate := hconj.1.2
        rw [if_pos hsc] at hgate
        rw [authorize_update_eq_resolve]
        exact hgate
      · have hgate := hconj.1.2
        rw [if_neg hsc] at hgate
        exact hgate
  · intro hst hsevn
    constructor
    · intro hex
      have hconj := hiff.mp hex
      rw [hst] at hconj
      exact hconj.1
    · intro hau
      refine hiff.mpr ?_
      rw [hst]
      exact ⟨hau, fun hne => absurd hsevn hne⟩

/-- C4 witness: an Owner updating only the title succeeds, matching the
incidents.update-only branch of the layering theorem. -/
theorem update_permissions_layering_witness :
    ∃ result,
      updateIncident
        ⟨[], [⟨"m1", "t1", "u1", .Owner, 0, 0⟩], []⟩
        ⟨[⟨1, "t1", "outage", "", .SEV1, .declared, 0, none, "u1", [], 0, 0⟩], [], [], []⟩
        "u1" "t1" 1 { title := some "new title" } 5 = Except.ok result := by
  have h := (update_permissions_layering
    ⟨[], [⟨"m1", "t1", "u1", .Owner, 0, 0⟩], []⟩
    ⟨[⟨1, "t1", "outage", "", .SEV1, .declared, 0, none, "u1", [], 0, 0⟩], [], [], []⟩
    "u1" "t1" 1 ⟨"m1", "t1", "u1", .Owner, 0, 0⟩
    ⟨1, "t1", "outage", "", .SEV1, .declared, 0, none, "u1", [], 0, 0⟩
    { title := some "new title" } 5 (by decide) (by decide)).2.2 rfl rfl
  exact h.mpr (by decide)

/-! Theorems for claims C5 and C6. -/

lemma ensureQuota_usageEvents (cfg : UsageServiceConfig) (st : UsageRepoState)
    (tenantId : String) (now : Nat) :
    (ensureQuota cfg st tenantId now).2.usageEvents = st.usageEvents := by
  unfold ensureQuota upsertTenantQuota
  cases h : getTenantQuota st tenantId <;> simp [h]

lemma consumeWriteQuota_ok_events {cfg : UsageServiceConfig} {st : UsageRepoState}
    {input : ConsumeWriteQuotaInput} {now newEventId : Nat} {s : UsageSummary}
    {st2 : UsageRepoState}
    (h : consumeWriteQuota cfg st input now newEventId = (Except.ok s, st2)) :
    st2.usageEvents = st.usageEvents ++
      [{ id := newEventId, tenantId := input.tenantId, actorUserId := input.actorUserId,
         apiKeyId := input.apiKeyId, metric := WRITE_REQUEST_METRIC, amount := 1,
         route := input.route, traceId := input.traceId, createdAt := now }] := by
  have hev := ensureQuota_usageEvents cfg st input.tenantId now
  unfold consumeWriteQuota at h
  cases he : ensureQuota cfg st input.tenantId now with
  | mk quota st1 =>
    rw [he] at h hev
    by_cases hgt : sumUsageSince st1 input.tenantId WRITE_REQUEST_METRIC
        (now - QUOTA_WINDOW_HOURS * 60 * 60 * 1000) + 1 > quota.dailyWriteLimit
    · simp [hgt] at h
    · simp only [hgt, if_neg, if_false, createUsageEvent] at h
      obtain ⟨-, hst⟩ := Prod.mk.injEq .. ▸ h
      rw [← hst]
      simpa using hev

/-- C5: consumeWriteQuota with window sum used and limit L fails with the
QUOTA_EXCEEDED error carrying (L, used) and appends no usage event when
used + 1 exceeds L, and otherwise appends exactly one event of amount 1 and
returns the summary with used + 1; concretely with dailyWriteLimit = 2 two
writes report used 1 then 2, a third fails leaving the store untouched, and
getUsageSummary then reports used 2, limit 2, remaining 0. -/
theorem consume_write_quota :
    (∀ (cfg : UsageServiceConfig) (st : UsageRepoState) (input : ConsumeWriteQuotaInput)
      (now newEventId : Nat) (quota : TenantUsageQuota) (st1 : UsageRepoState),
      ensureQuota cfg st input.tenantId now = (quota, st1) →
      ∀ used, used = sumUsageSince st1 input.tenantId WRITE_REQUEST_METRIC
          (now - QUOTA_WINDOW_HOURS * 60 * 60 * 1000) →
        (used + 1 > quota.dailyWriteLimit →
          consumeWriteQuota cfg st input now newEventId =
            (Except.error (quotaExceededError quota.dailyWriteLimit used), st1)
          ∧ st1.usageEvents = st.usageEvents)
        ∧ (used + 1 ≤ quota.dailyWriteLimit →
            consumeWriteQuota cfg st input now newEventId =
              (Except.ok
                { tenantId := input.tenantId, metric := WRITE_REQUEST_METRIC,
                  windowHours := QUOTA_WINDOW_HOURS, used := used + 1,
                  limit := quota.dailyWriteLimit,
                  remaining := max (quota.dailyWriteLimit - (used + 1)) 0 },
               { st1 with usageEvents := st1.usageEvents ++
                  [{ id := newEventId, tenantId := input.tenantId,
                     actorUserId := input.actorUserId, apiKeyId := input.apiKeyId,
                     metric := WRITE_REQUEST_METRIC, amount := 1, route := input.route,
                     traceId := input.traceId, createdAt := now }] })))
    ∧ quotaStep1.1 = Except.ok
        { tenantId := "t1", metric := WRITE_REQUEST_METRIC, windowHours := 24,
          used := 1, limit := 2, remaining := 1 }
    ∧ quotaStep2.1 = Except.ok
        { tenantId := "t1", metric := WRITE_REQUEST_METRIC, windowHours := 24,
          used := 2, limit := 2, remaining := 0 }
    ∧ quotaStep3.1 = Except.error (quotaExceededError 2 2)
    ∧ quotaStep3.2 = quotaStep2.2
    ∧ (getUsageSummary ⟨2⟩ quotaScenarioTenantSt quotaStep3.2 "u1" "t1" 1003).1 =
        Except.ok
          { tenantId := "t1", metric := WRITE_REQUEST_METRIC, windowHours := 24,
            used := 2, limit := 2, remaining := 0 } := by
  refine ⟨?_, by decide, by decide, by decide, by decide, by decide⟩
  intro cfg st input now newEventId quota st1 hens used hused
  have hev : st1.usageEvents = st.usageEvents := by
    have := ensureQuota_usageEvents cfg st input.tenantId now
    rw [hens] at this
    exact this
  constructor
  · intro hgt
    refine ⟨?_, hev⟩
    unfold consumeWriteQuota
    rw [hens]
    dsimp only
    rw [← hused]
    simp [hgt]
  · intro hle
    unfold consumeWriteQuota
    rw [hens]
    dsimp only
    rw [← hused]
    have hnot : ¬ (used + 1 > quota.dailyWriteLimit) := by omega
    simp [hnot, createUsageEvent]

/-- C5 witness: the first write of the limit-2 scenario, via the general
branch of the theorem with window sum zero. -/
theorem consume_write_quota_witness :
    consumeWriteQuota ⟨2⟩ ⟨[], []⟩ quotaScenarioInput 1000 1 =
      (Except.ok
        { tenantId := "t1", metric := WRITE_REQUEST_METRIC, windowHours := 24,
          used := 1, limit := 2, remaining := 1 },
       ⟨[⟨"t1", 2, 1000, 1000⟩],
        [⟨1, "t1", some "u1", none, WRITE_REQUEST_METRIC, 1, "incidents.create",
          none, 1000⟩]⟩) := by
  have h := ((consume_write_quota.1 ⟨2⟩ ⟨[], []⟩ quotaScenarioInput 1000 1
    ⟨"t1", 2, 1000, 1000⟩ ⟨[⟨"t1", 2, 1000, 1000⟩], []⟩ (by decide) 0 (by decide)).2
    (by decide))
  simpa using h

/-- C6 counterexample: a POST /v1/incidents request by a user with no
membership in the active tenant fails with TENANT_NOT_FOUND, yet one usage
event has been recorded — the quota limiter ran before the membership lookup,
so the failed request did consume quota, contradicting the claimed ordering. -/
theorem quota_after_policy_counterexample :
    (postIncidentHandler ⟨1⟩ ⟨[], [], []⟩ ⟨[], [], [], []⟩ ⟨[], []⟩ "u1" "t1"
        ⟨"Outage", "", .SEV1, 0, []⟩ none none 1000 1 2).1 =
      Except.error tenantNotFoundError
    ∧ ((postIncidentHandler ⟨1⟩ ⟨[], [], []⟩ ⟨[], [], [], []⟩ ⟨[], []⟩ "u1" "t1"
        ⟨"Outage", "", .SEV1, 0, []⟩ none none 1000 1 2).2.2).usageEvents.length = 1 := by
  decide

/-- C6 amended: in the mutating incident route handler the usage-quota
limiter runs before the membership lookup and the policy decision: a
quota-exhausted request fails QUOTA_EXCEEDED without reaching those checks;
a request that then fails its membership check with NotFound has already
recorded exactly one usage event; and a request whose membership exists but
whose incidents.create policy check denies fails PERMISSION_DENIED having
likewise already recorded exactly one usage event. -/
theorem quota_before_policy :
    ∀ (cfg : UsageServiceConfig) (tenantSt : TenantRepoState)
      (incidentSt : IncidentRepoState) (usageSt : UsageRepoState)
      (userId tenantId : String) (payload : CreateIncidentInput)
      (apiKeyId traceId : Option String) (now newEventId newIncidentId : Nat),
      (∀ (e : AppError) (usageSt1 : UsageRepoState),
        consumeWriteQuota cfg usageSt
            { userId := userId, tenantId := tenantId, actorUserId := some userId,
              apiKeyId := apiKeyId, route := "incidents.create", traceId := traceId }
            now newEventId = (Except.error e, usageSt1) →
          postIncidentHandler cfg tenantSt incidentSt usageSt userId tenantId payload
              apiKeyId traceId now newEventId newIncidentId =
            (Except.error e, incidentSt, usageSt1))
      ∧ (∀ (s : UsageSummary) (usageSt1 : UsageRepoState),
          consumeWriteQuota cfg usageSt
              { userId := userId, tenantId := tenantId, actorUserId := some userId,
                apiKeyId := apiKeyId, route := "incidents.create", traceId := traceId }
              now newEventId = (Except.ok s, usageSt1) →
          getMembership tenantSt tenantId userId = none →
            postIncidentHandler cfg tenantSt incidentSt usageSt userId tenantId payload
                apiKeyId traceId now newEventId newIncidentId =
              (Except.error tenantNotFoundError, incidentSt, usageSt1)
            ∧ usageSt1.usageEvents.length = usageSt.usageEvents.length + 1)
      ∧ (∀ (s : UsageSummary) (usageSt1 : UsageRepoState) (m : Membership),
          consumeWriteQuota cfg usageSt
              { userId := userId, tenantId := tenantId, actorUserId := some userId,
                apiKeyId := apiKeyId, route := "incidents.create", traceId := traceId }
              now newEventId = (Except.ok s, usageSt1) →
          getMembership tenantSt tenantId userId = some m →
          (authorize .incidents_create (membershipAuthContext m)).allowed = false →
            postIncidentHandler cfg tenantSt incidentSt usageSt userId tenantId payload
                apiKeyId traceId now newEventId newIncidentId =
              (Except.error
                { status := 403, code := "PERMISSION_DENIED",
                  message := (authorize .incidents_create
                    (membershipAuthContext m)).reason.getD "Permission denied." },
               incidentSt, usageSt1)
            ∧ usageSt1.usageEvents.length = usageSt.usageEvents.length + 1) := by
  intro cfg tenantSt incidentSt usageSt userId tenantId payload apiKeyId traceId now
    newEventId newIncidentId
  refine ⟨?_, ?_, ?_⟩
  · intro e usageSt1 hcons
    unfold postIncidentHandler
    rw [hcons]
  · intro s usageSt1 hcons hnone
    have hreq : requireMembership tenantSt userId tenantId =
        Except.error tenantNotFoundError := by
      unfold requireMembership
      rw [hnone]
    constructor
    · unfold postIncidentHandler
      rw [hcons]
      simp [createIncident, bind, Except.bind, hreq]
    · rw [consumeWriteQuota_ok_events hcons]
      simp
  · intro s usageSt1 m hcons hm hdeny
    have hreq : requireMembership tenantSt userId tenantId = Except.ok m := by
      unfold requireMembership
      rw [hm]
    constructor
    · unfold postIncidentHandler
      rw [hcons]
      simp [createIncident, bind, Except.bind, hreq, assertAuthorized_of_denied hdeny]
    · rw [consumeWriteQuota_ok_events hcons]
      simp

/-- C6 witness: instantiates the amended ordering theorem twice on concrete
stores — once with no membership row (NotFound after the quota write) and
once with a Viewer membership whose incidents.create check denies
(PermissionDenied after the quota write). -/
theorem quota_before_policy_witness :
    postIncidentHandler ⟨1⟩ ⟨[], [], []⟩ ⟨[], [], [], []⟩ ⟨[], []⟩ "u1" "t1"
        ⟨"Outage", "", .SEV1, 0, []⟩ none none 1000 1 2 =
      (Except.error tenantNotFoundError, ⟨[], [], [], []⟩,
        ⟨[⟨"t1", 1, 1000, 1000⟩],
         [⟨1, "t1", some "u1", none, WRITE_REQUEST_METRIC, 1, "incidents.create",
           none, 1000⟩]⟩)
    ∧ postIncidentHandler ⟨1⟩ ⟨[], [⟨"m1", "t1", "u1", .Viewer, 0, 0⟩], []⟩
        ⟨[], [], [], []⟩ ⟨[], []⟩ "u1" "t1"
        ⟨"Outage", "", .SEV1, 0, []⟩ none none 1000 1 2 =
      (Except.error
        { status := 403, code := "PERMISSION_DENIED",
          message := "Missing permission for action 'incidents.create'." },
       ⟨[], [], [], []⟩,
        ⟨[⟨"t1", 1, 1000, 1000⟩],
         [⟨1, "t1", some "u1", none, WRITE_REQUEST_METRIC, 1, "incidents.create",
           none, 1000⟩]⟩) := by
  constructor
  · exact ((quota_before_policy ⟨1⟩ ⟨[], [], []⟩ ⟨[], [], [], []⟩ ⟨[], []⟩ "u1" "t1"
      ⟨"Outage", "", .SEV1, 0, []⟩ none none 1000 1 2).2.1
      { tenantId := "t1", metric := WRITE_REQUEST_METRIC, windowHours := 24,
        used := 1, limit := 1, remaining := 0 }
      ⟨[⟨"t1", 1, 1000, 1000⟩],
       [⟨1, "t1", some "u1", none, WRITE_REQUEST_METRIC, 1, "incidents.create",
         none, 1000⟩]⟩ (by decide) (by decide)).1
  · exact ((quota_before_policy ⟨1⟩ ⟨[], [⟨"m1", "t1", "u1", .Viewer, 0, 0⟩], []⟩
      ⟨[], [], [], []⟩ ⟨[], []⟩ "u1" "t1"
      ⟨"Outage", "", .SEV1, 0, []⟩ none none 1000 1 2).2.2
      { tenantId := "t1", metric := WRITE_REQUEST_METRIC, windowHours := 24,
        used := 1, limit := 1, remaining := 0 }
      ⟨[⟨"t1", 1, 1000, 1000⟩],
       [⟨1, "t1", some "u1", none, WRITE_REQUEST_METRIC, 1, "incidents.create",
         none, 1000⟩]⟩ ⟨"m1", "t1", "u1", .Viewer, 0, 0⟩
      (by decide) (by decide) (by decide)).1

/-! Theorems for claims C8, C9 and C10. -/

lemma dedupFirstAux_nodup {α : Type} [DecidableEq α] (seen : List α) (l : List α) :
    (dedupFirstAux seen l).Nodup ∧ ∀ x ∈ dedupFirstAux seen l, x ∉ seen := by
  induction l generalizing seen with
  | nil => simp [dedupFirstAux]
  | cons x xs ih =>
    by_cases hx : x ∈ seen
    · simpa [dedupFirstAux, hx] using ih seen
    · have ihx := ih (x :: seen)
      simp only [dedupFirstAux]
      rw [if_neg hx]
      refine ⟨List.nodup_cons.mpr ⟨?_, ihx.1⟩, ?_⟩
      · intro hmem
        exact (ihx.2 x hmem) (List.mem_cons_self x seen)
      · intro y hy
        rcases List.mem_cons.mp hy with h | h
        · subst h
          exact hx
        · exact fun hsy => (ihx.2 y h) (List.mem_cons_of_mem _ hsy)

lemma dedupFirst_nodup {α : Type} [DecidableEq α] (l : List α) : (dedupFirst l).Nodup :=
  (dedupFirstAux_nodup [] l).1

lemma dedupFirst_cons_ne_nil {α : Type} [DecidableEq α] (x : α) (xs : List α) :
    dedupFirst (x :: xs) ≠ [] := by
  simp [dedupFirst, dedupFirstAux]

lemma normalizeScopes_spec (scopes : List ApiKeyScope) :
    normalizeScopes scopes ≠ [] ∧ (normalizeScopes scopes).Nodup ∧
      (scopes = [] → normalizeScopes scopes = [.read]) := by
  refine ⟨?_, ?_, ?_⟩
  · cases scopes with
    | nil => simp [normalizeScopes, dedupFirst, dedupFirstAux]
    | cons x xs =>
      simp only [normalizeScopes, List.length_cons, Nat.succ_ne_zero, if_false, if_neg]
      exact dedupFirst_cons_ne_nil x xs
  · exact dedupFirst_nodup _
  · intro h
    subst h
    simp [normalizeScopes, dedupFirst, dedupFirstAux]

/-- C10: normalizeScopes always yields a non-empty duplicate-free scope set,
defaulting an empty request to exactly the read scope; ensureValidScopeSet
never rejects a request drawn from the scope enumeration (the empty list in
particular); and every API key record persisted by createApiKey carries that
normalized set, so stored keys satisfy the non-empty-scope invariant. -/
theorem api_key_scope_invariant :
    (∀ scopes : List ApiKeyScope,
      normalizeScopes scopes ≠ [] ∧ (normalizeScopes scopes).Nodup ∧
        (scopes = [] → normalizeScopes scopes = [.read]) ∧
        ensureValidScopeSet scopes = Except.ok ())
    ∧ (∀ (hash : String → String) (tenantSt : TenantRepoState) (st : ApiKeyRepoState)
        (userId tenantId serviceAccountId name : String) (scopes : List ApiKeyScope)
        (secretPart newId : String) (now : Nat) (apiKey : ApiKeyRecord) (secret : String)
        (st1 : ApiKeyRepoState),
        createApiKey hash tenantSt st userId tenantId serviceAccountId name scopes
            secretPart newId now = Except.ok (apiKey, secret, st1) →
          apiKey.scopes = normalizeScopes scopes ∧ apiKey.scopes ≠ [] ∧
            apiKey.scopes.Nodup ∧ (scopes = [] → apiKey.scopes = [.read]) ∧
            apiKey ∈ st1.apiKeys) := by
  have hvalid : ∀ scopes : List ApiKeyScope, ensureValidScopeSet scopes = Except.ok () := by
    intro scopes
    unfold ensureValidScopeSet
    rw [if_pos]
    simp only [List.all_eq_true]
    intro scope hs
    cases scope <;> decide
  constructor
  · intro scopes
    obtain ⟨h1, h2, h3⟩ := normalizeScopes_spec scopes
    exact ⟨h1, h2, h3, hvalid scopes⟩
  · intro hash tenantSt st userId tenantId serviceAccountId name scopes secretPart newId
      now apiKey secret st1 hok
    simp only [createApiKey, bind, Except.bind] at hok
    split at hok
    · simp at hok
    · split at hok
      · simp at hok
      · split at hok
        · simp at hok
        · split at hok
          · simp at hok
          · split at hok
            · simp_all [hvalid]
            · simp only [pure, Except.pure, Except.ok.injEq, Prod.mk.injEq] at hok
              obtain ⟨hkey, -, hst⟩ := hok
              obtain ⟨h1, h2, h3⟩ := normalizeScopes_spec scopes
              subst hkey
              refine ⟨rfl, h1, h2, fun h => by rw [h3 h], ?_⟩
              rw [← hst]
              simp

/-- C10 witness: creating a key with an empty requested scope list persists
exactly the read scope. -/
theorem api_key_scope_invariant_witness :
    normalizeScopes [] = [.read] ∧ ensureValidScopeSet [] = Except.ok () := by
  have h := api_key_scope_invariant.1 []
  exact ⟨h.2.2.1 rfl, h.2.2.2⟩

/-- C9: a raw key without the itk_ tag, an unknown raw key, and a revoked raw
key all fail the api-key middleware with the same 401 AUTH_INVALID_API_KEY
error value, while a successfully authenticated key lacking the scope class
required by the HTTP method (read for GET/HEAD/OPTIONS, write otherwise)
fails with the distinct 403 API_KEY_SCOPE_DENIED error. -/
theorem api_key_error_classes :
    (∀ (hash : String → String) (st : ApiKeyRepoState) (tenantSt : TenantRepoState)
      (rawKey method : String) (now : Nat),
      rawKey.length ≠ 0 →
        (API_KEY_PREFIX.data.isPrefixOf rawKey.data = false →
          apiKeyAuthMiddleware hash st tenantSt (some rawKey) method now =
            (.failed apiKeyInvalidError, st))
        ∧ (findActiveApiKeyByHash st (hash rawKey) = none →
            apiKeyAuthMiddleware hash st tenantSt (some rawKey) method now =
              (.failed apiKeyInvalidError, st))
        ∧ (∀ record, st.apiKeys.find? (fun k => k.keyHash == hash rawKey) = some record →
            record.revokedAt ≠ none →
              apiKeyAuthMiddleware hash st tenantSt (some rawKey) method now =
                (.failed apiKeyInvalidError, st))
        ∧ (∀ principal st1,
            authenticateApiKey hash st tenantSt rawKey now = (some principal, st1) →
              (SAFE_METHODS.contains method = true →
                principal.scopes.contains .read = false →
                  apiKeyAuthMiddleware hash st tenantSt (some rawKey) method now =
                    (.failed apiKeyScopeDeniedError, st1))
              ∧ (SAFE_METHODS.contains method = false →
                  principal.scopes.contains .write = false →
                    apiKeyAuthMiddleware hash st tenantSt (some rawKey) method now =
                      (.failed apiKeyScopeDeniedError, st1))))
    ∧ apiKeyInvalidError.status = 401 ∧ apiKeyScopeDeniedError.status = 403
    ∧ apiKeyInvalidError ≠ apiKeyScopeDeniedError := by
  refine ⟨?_, rfl, rfl, by decide⟩
  intro hash st tenantSt rawKey method now hlen
  have hnone : ∀ st1', authenticateApiKey hash st tenantSt rawKey now = (none, st1') →
      apiKeyAuthMiddleware hash st tenantSt (some rawKey) method now =
        (.failed apiKeyInvalidError, st1') := by
    intro st1' hauth
    simp [apiKeyAuthMiddleware, hlen, hauth]
  refine ⟨?_, ?_, ?_, ?_⟩
  · intro hbad
    refine hnone st ?_
    simp [authenticateApiKey, hbad]
  · intro hmiss
    refine hnone st ?_
    cases hpre : API_KEY_PREFIX.data.isPrefixOf rawKey.data with
    | false => simp [authenticateApiKey, hpre]
    | true => simp [authenticateApiKey, hpre, hmiss]
  · intro record hfindk hrev
    refine hnone st ?_
    have hactive : findActiveApiKeyByHash st (hash rawKey) = none := by
      unfold findActiveApiKeyByHash
      rw [hfindk]
      simp [hrev]
    cases hpre : API_KEY_PREFIX.data.isPrefixOf rawKey.data with
    | false => simp [authenticateApiKey, hpre]
    | true => simp [authenticateApiKey, hpre, hactive]
  · intro principal st1 hauth
    constructor
    · intro hsafe hnoread
      have hmem : method ∈ SAFE_METHODS := by simpa using hsafe
      have hread : ApiKeyScope.read ∉ principal.scopes := by simpa using hnoread
      simp [apiKeyAuthMiddleware, hlen, hauth, hasReadScope, hmem, hread]
    · intro hunsafe hnowrite
      have hmem : method ∉ SAFE_METHODS := by simpa using hunsafe
      have hwrite : ApiKeyScope.write ∉ principal.scopes := by simpa using hnowrite
      simp [apiKeyAuthMiddleware, hlen, hauth, hasWriteScope, hmem, hwrite]

/-- C9 witness: under the identity digest, the stored read-only key fails a
POST with the scope-denial error, and a prefix-less raw key fails with the
authentication error. -/
theorem api_key_error_classes_witness :
    apiKeyAuthMiddleware (fun s => s) apiKeyScenarioSt quotaScenarioTenantSt
        (some "itk_abc") "POST" 50 =
      (.failed apiKeyScopeDeniedError,
        ⟨[⟨"sa1", "t1", "Bot", "u1", "u1", none, 0, 0⟩],
         [⟨"k1", "t1", "sa1", "Bot key", "itk_abc", [.read], "u1", some 50, none, 0⟩]⟩)
    ∧ apiKeyAuthMiddleware (fun s => s) apiKeyScenarioSt quotaScenarioTenantSt
        (some "bad_abc") "GET" 50 = (.failed apiKeyInvalidError, apiKeyScenarioSt) := by
  constructor
  · exact (((api_key_error_classes.1 (fun s => s) apiKeyScenarioSt quotaScenarioTenantSt
      "itk_abc" "POST" 50 (by decide)).2.2.2
      ⟨"k1", "t1", "u1", [.read]⟩
      ⟨[⟨"sa1", "t1", "Bot", "u1", "u1", none, 0, 0⟩],
       [⟨"k1", "t1", "sa1", "Bot key", "itk_abc", [.read], "u1", some 50, none, 0⟩]⟩
      (by decide)).2 (by decide) (by decide))
  · exact (api_key_error_classes.1 (fun s => s) apiKeyScenarioSt quotaScenarioTenantSt
      "bad_abc" "GET" 50 (by decide)).1 (by decide)

lemma find?_tokenHash_replaced (l : List TenantInvite) (tokenHash : String)
    (invite acceptedInvite : TenantInvite)
    (hfind : l.find? (fun i => i.tokenHash == tokenHash) = some invite)
    (hhash : acceptedInvite.tokenHash = invite.tokenHash) :
    (l.map (fun i => if i.id == invite.id then acceptedInvite else i)).find?
      (fun i => i.tokenHash == tokenHash) = some acceptedInvite := by
  have hmatch : (invite.tokenHash == tokenHash) = true := by
    have := List.find?_some hfind
    simpa using this
  have hacc : (fun i : TenantInvite => i.tokenHash == tokenHash) acceptedInvite = true := by
    simp only []
    rw [hhash]
    exact hmatch
  induction l with
  | nil => simp at hfind
  | cons x xs ih =>
    by_cases hpx : (fun i : TenantInvite => i.tokenHash == tokenHash) x = true
    · rw [@List.find?_cons_of_pos _ (fun i : TenantInvite => i.tokenHash == tokenHash)
        x xs hpx] at hfind
      have hx : x = invite := by injection hfind
      subst hx
      simp only [List.map_cons]
      rw [if_pos (show (x.id == x.id) = true by simp)]
      exact @List.find?_cons_of_pos _ (fun i : TenantInvite => i.tokenHash == tokenHash)
        acceptedInvite _ hacc
    · rw [@List.find?_cons_of_neg _ (fun i : TenantInvite => i.tokenHash == tokenHash)
        x xs hpx] at hfind
      simp only [List.map_cons]
      by_cases hxid : (x.id == invite.id) = true
      · rw [if_pos hxid]
        exact @List.find?_cons_of_pos _ (fun i : TenantInvite => i.tokenHash == tokenHash)
          acceptedInvite _ hacc
      · rw [if_neg hxid]
        rw [@List.find?_cons_of_neg _ (fun i : TenantInvite => i.tokenHash == tokenHash)
          x _ hpx]
        exact ih hfind

/-- C8 counterexample: an invite whose expiresAt equals the acceptance
instant is accepted even though expiresAt is not in the future at that
moment — the code rejects only strictly-past expiry. -/
theorem invite_expiry_boundary_counterexample :
    (acceptInvite inviteBoundarySt "tok-hash" "u1" "alice@example.com" 100 "m2").isSome
      = true
    ∧ ¬ (100 < (100 : Nat)) := by
  decide

/-- C8 amended: acceptance succeeds iff the invite found by token hash has a
null acceptedAt, an expiresAt not earlier than the acceptance time (the exact
boundary instant still accepts), a case-insensitively matching email, and an
existing tenant; an unknown token fails; a repository failure surfaces as the
400 INVITE_INVALID error from the service (leaving the caller's state, hence
memberships, untouched); and an accepted invite can never be accepted again. -/
theorem invite_acceptance_rules :
    (∀ (st : TenantRepoState) (tokenHash userId userEmail : String) (now : Nat)
      (newId : String) (invite : TenantInvite),
      st.invites.find? (fun i => i.tokenHash == tokenHash) = some invite →
        ((acceptInvite st tokenHash userId userEmail now newId).isSome = true ↔
          (invite.acceptedAt = none ∧ now ≤ invite.expiresAt ∧
            lowerStr invite.email = lowerStr userEmail ∧
            (st.tenants.find? (fun t => t.id == invite.tenantId)).isSome = true)))
    ∧ (∀ (st : TenantRepoState) (tokenHash userId userEmail : String) (now : Nat)
        (newId : String),
        st.invites.find? (fun i => i.tokenHash == tokenHash) = none →
          acceptInvite st tokenHash userId userEmail now newId = none)
    ∧ (∀ (hash : String → String) (users : List User) (st : TenantRepoState)
        (userId token : String) (now : Nat) (newId : String) (user : User),
        users.find? (fun u => u.id == userId) = some user →
        acceptInvite st (hash token) userId user.email now newId = none →
          tenantServiceAcceptInvite hash users st userId token now newId =
            Except.error inviteInvalidError)
    ∧ (∀ (st : TenantRepoState) (tokenHash userId userEmail : String) (now : Nat)
        (newId : String) (tenant : Tenant) (membership : Membership)
        (acceptedInvite : TenantInvite) (st1 : TenantRepoState),
        acceptInvite st tokenHash userId userEmail now newId =
            some (tenant, membership, acceptedInvite, st1) →
          ∀ (userId2 userEmail2 : String) (now2 : Nat) (newId2 : String),
            acceptInvite st1 tokenHash userId2 userEmail2 now2 newId2 = none) := by
  refine ⟨?_, ?_, ?_, ?_⟩
  · intro st tokenHash userId userEmail now newId invite hfind
    simp only [acceptInvite, hfind]
    by_cases h1 : invite.acceptedAt = none
    · by_cases h2 : invite.expiresAt < now
      · have : ¬ (now ≤ invite.expiresAt) := by omega
        simp [h1, h2, this]
      · by_cases h3 : lowerStr invite.email = lowerStr userEmail
        · cases ht : st.tenants.find? (fun t => t.id == invite.tenantId) with
          | none => simp [h1, h2, h3, ht]
          | some tenant =>
            simp only [h1, h2, h3, ht, bne_self_eq_false, Bool.or_eq_true,
              bne_iff_ne, ne_eq, not_true_eq_false, decide_eq_true_eq, false_or,
              Option.isSome_some, and_true, true_and, iff_true]
            simp [h2]
            omega
        · simp [h1, h2, h3]
    · simp [h1]
  · intro st tokenHash userId userEmail now newId hfind
    simp [acceptInvite, hfind]
  · intro hash users st userId token now newId user huser hrepo
    simp [tenantServiceAcceptInvite, huser, hrepo]
  · intro st tokenHash userId userEmail now newId tenant membership acceptedInvite st1
      hsucc userId2 userEmail2 now2 newId2
    cases hfind : st.invites.find? (fun i => i.tokenHash == tokenHash) with
    | none => simp [acceptInvite, hfind] at hsucc
    | some invite =>
      simp only [acceptInvite, hfind] at hsucc
      by_cases hcond : (invite.acceptedAt != none || decide (invite.expiresAt < now)) = true
      · rw [if_pos hcond] at hsucc; cases hsucc
      · rw [if_neg hcond] at hsucc
        by_cases hemail : (lowerStr invite.email != lowerStr userEmail) = true
        · rw [if_pos hemail] at hsucc; cases hsucc
        · rw [if_neg hemail] at hsucc
          cases ht : st.tenants.find? (fun t => t.id == invite.tenantId) with
          | none => rw [ht] at hsucc; cases hsucc
          | some tenant0 =>
            rw [ht] at hsucc
            simp only [Option.some.injEq, Prod.mk.injEq] at hsucc
            obtain ⟨-, -, hinv, hst1⟩ := hsucc
            have hfind1 : st1.invites.find? (fun i => i.tokenHash == tokenHash) =
                some acceptedInvite := by
              rw [← hst1, ← hinv]
              exact find?_tokenHash_replaced st.invites tokenHash invite
                { invite with acceptedAt := some now, acceptedByUserId := some userId }
                hfind rfl
            simp only [acceptInvite, hfind1]
            rw [if_pos (by rw [← hinv]; simp)]

/-! Theorems for claim C7. -/

lemma filter_after_cursor_eq_drop {α : Type} (p : α → α → Bool) (l : List α) (k : Nat)
    (c : α)
    (hl : l.Pairwise (fun a b => p b a = true))
    (hasym : ∀ x y, p y x = true → p x y = false)
    (hirr : ∀ x, p x x = false)
    (hc : (l.take k).getLast? = some c) :
    l.filter (fun x => p x c) = l.drop k := by
  obtain ⟨ys, hys⟩ := List.getLast?_eq_some_iff.mp hc
  have hsplit : l = List.take k l ++ List.drop k l := (List.take_append_drop k l).symm
  have hpw : List.Pairwise (fun a b => p b a = true) (List.take k l ++ List.drop k l) := by
    rw [← hsplit]
    exact hl
  rw [List.pairwise_append] at hpw
  have hpw1 := hpw.1
  have hcross := hpw.2.2
  have hcmem : c ∈ List.take k l := by
    rw [hys]
    simp
  conv_lhs => rw [hsplit]
  rw [List.filter_append]
  have h1 : (List.take k l).filter (fun x => p x c) = [] := by
    refine List.filter_eq_nil_iff.mpr ?_
    intro a ha
    rw [hys] at ha hpw1
    rcases List.mem_append.mp ha with h | h
    · have hbefore : p c a = true := by
        rw [List.pairwise_append] at hpw1
        exact hpw1.2.2 a h c (by simp)
      simp [hasym _ _ hbefore]
    · have hac : a = c := by simpa using h
      subst hac
      simp [hirr]
  have h2 : (List.drop k l).filter (fun x => p x c) = List.drop k l := by
    refine List.filter_eq_self.mpr ?_
    intro a ha
    exact hcross c hcmem a ha
  rw [h1, h2, List.nil_append]

lemma isAfterCursor_iff (x : Incident) (c : IncidentListCursor) :
    isAfterCursor x c = true ↔
      (x.createdAt < c.createdAt ∨ (x.createdAt = c.createdAt ∧ x.id < c.id)) := by
  unfold isAfterCursor
  by_cases h1 : x.createdAt < c.createdAt
  · rw [if_pos h1]
    simp
    omega
  · rw [if_neg h1]
    by_cases h2 : c.createdAt < x.createdAt
    · rw [if_pos h2]
      simp
      omega
    · rw [if_neg h2]
      simp
      omega

lemma isAfterCursor_asymm (x y : Incident)
    (h : isAfterCursor y ⟨x.createdAt, x.id⟩ = true) :
    isAfterCursor x ⟨y.createdAt, y.id⟩ = false := by
  rw [isAfterCursor_iff] at h
  rw [← Bool.not_eq_true, isAfterCursor_iff]
  simp only at h ⊢
  omega

lemma isAfterCursor_irrefl (x : Incident) :
    isAfterCursor x ⟨x.createdAt, x.id⟩ = false := by
  rw [← Bool.not_eq_true, isAfterCursor_iff]
  simp

lemma sorted_incidents_pairwise (l : List Incident)
    (hids : l.Pairwise (fun a b => a.id ≠ b.id)) :
    (List.insertionSort compareDescendingLE l).Pairwise
      (fun a b => isAfterCursor b ⟨a.createdAt, a.id⟩ = true) := by
  have hsorted : List.Pairwise compareDescendingLE
      (List.insertionSort compareDescendingLE l) :=
    List.sorted_insertionSort compareDescendingLE l
  have hperm := List.perm_insertionSort compareDescendingLE l
  have hids' : (List.insertionSort compareDescendingLE l).Pairwise
      (fun a b => a.id ≠ b.id) :=
    (List.Perm.pairwise_iff (fun h => h.symm) hperm).mpr hids
  refine (hsorted.and hids').imp ?_
  intro a b hab
  obtain ⟨hle, hne⟩ := hab
  rw [isAfterCursor_iff]
  unfold compareDescendingLE at hle
  simp only
  omega

lemma repoListIncidents_no_cursor (incidents : List Incident) (tenantId : String)
    (limit : Nat) :
    repoListIncidents incidents tenantId limit none =
      (List.insertionSort compareDescendingLE
        (incidents.filter (fun incident => incident.tenantId == tenantId))).take limit := by
  unfold repoListIncidents
  simp

lemma repoListIncidents_length_le (incidents : List Incident) (tenantId : String)
    (limit : Nat) (after : Option IncidentListCursor) :
    (repoListIncidents incidents tenantId limit after).length ≤ limit := by
  unfold repoListIncidents
  rw [List.length_take]
  exact Nat.min_le_left _ _

lemma repoListIncidents_cursor_continues (incidents : List Incident) (tenantId : String)
    (k k' : Nat) (c : Incident)
    (hids : (incidents.filter (fun incident => incident.tenantId == tenantId)).Pairwise
      (fun a b => a.id ≠ b.id))
    (hc : ((List.insertionSort compareDescendingLE
        (incidents.filter (fun incident => incident.tenantId == tenantId))).take
          k).getLast? = some c) :
    repoListIncidents incidents tenantId k' (some ⟨c.createdAt, c.id⟩) =
      ((List.insertionSort compareDescendingLE
        (incidents.filter (fun incident => incident.tenantId == tenantId))).drop
          k).take k' := by
  unfold repoListIncidents
  refine congrArg (List.take k') ?_
  exact filter_after_cursor_eq_drop
    (fun x y => isAfterCursor x ⟨y.createdAt, y.id⟩) _ k c
    (sorted_incidents_pairwise _ hids)
    (fun x y h => isAfterCursor_asymm x y h)
    (fun x => isAfterCursor_irrefl x)
    hc

lemma listIncidents_ok_elim {config : IncidentServiceConfig} {tenantSt : TenantRepoState}
    {incidentSt : IncidentRepoState} {userId tenantId : String} {limit : Option Nat}
    {cursor : Option IncidentListCursor} {page : IncidentListPage} {k : Nat}
    (hok : listIncidents config tenantSt incidentSt userId tenantId limit cursor =
      Except.ok page)
    (hk : normalizeLimit config limit = Except.ok k) :
    page.incidents = repoListIncidents incidentSt.incidents tenantId k cursor ∧
      page.nextCursor =
        (if page.incidents.length < k ∨ page.incidents.getLast? = none then none
         else
           match page.incidents.getLast? with
           | none => none
           | some last => some { createdAt := last.createdAt, id := last.id }) := by
  simp only [listIncidents, bind, Except.bind, hk] at hok
  split at hok
  · simp at hok
  · split at hok
    · simp at hok
    · simp only [pure, Except.pure, Except.ok.injEq] at hok
      subst hok
      exact ⟨rfl, rfl⟩

lemma isAfterAuditCursor_iff (x : AuditLogEvent) (c : AuditLogListCursor) :
    isAfterAuditCursor x c = true ↔
      (x.createdAt < c.createdAt ∨ (x.createdAt = c.createdAt ∧ x.id < c.id)) := by
  unfold isAfterAuditCursor
  by_cases h1 : x.createdAt < c.createdAt
  · rw [if_pos h1]
    simp
    omega
  · rw [if_neg h1]
    by_cases h2 : c.createdAt < x.createdAt
    · rw [if_pos h2]
      simp
      omega
    · rw [if_neg h2]
      simp
      omega

lemma isAfterAuditCursor_asymm (x y : AuditLogEvent)
    (h : isAfterAuditCursor y ⟨x.createdAt, x.id⟩ = true) :
    isAfterAuditCursor x ⟨y.createdAt, y.id⟩ = false := by
  rw [isAfterAuditCursor_iff] at h
  rw [← Bool.not_eq_true, isAfterAuditCursor_iff]
  simp only at h ⊢
  omega

lemma isAfterAuditCursor_irrefl (x : AuditLogEvent) :
    isAfterAuditCursor x ⟨x.createdAt, x.id⟩ = false := by
  rw [← Bool.not_eq_true, isAfterAuditCursor_iff]
  simp

lemma sorted_audit_pairwise (l : List AuditLogEvent)
    (hids : l.Pairwise (fun a b => a.id ≠ b.id)) :
    (List.insertionSort auditDescLE l).Pairwise
      (fun a b => isAfterAuditCursor b ⟨a.createdAt, a.id⟩ = true) := by
  have hsorted : List.Pairwise auditDescLE (List.insertionSort auditDescLE l) :=
    List.sorted_insertionSort auditDescLE l
  have hperm := List.perm_insertionSort auditDescLE l
  have hids' : (List.insertionSort auditDescLE l).Pairwise (fun a b => a.id ≠ b.id) :=
    (List.Perm.pairwise_iff (fun h => h.symm) hperm).mpr hids
  refine (hsorted.and hids').imp ?_
  intro a b hab
  obtain ⟨hle, hne⟩ := hab
  rw [isAfterAuditCursor_iff]
  unfold auditDescLE at hle
  simp only
  omega

lemma repoListAuditEvents_no_cursor (events : List AuditLogEvent) (tenantId : String)
    (limit : Nat) :
    repoListAuditEvents events tenantId limit none =
      (List.insertionSort auditDescLE
        (events.filter (fun event => event.tenantId == some tenantId))).take limit := by
  unfold repoListAuditEvents
  simp

lemma repoListAuditEvents_cursor_continues (events : List AuditLogEvent)
    (tenantId : String) (k k' : Nat) (c : AuditLogEvent)
    (hids : (events.filter (fun event => event.tenantId == some tenantId)).Pairwise
      (fun a b => a.id ≠ b.id))
    (hc : ((List.insertionSort auditDescLE
        (events.filter (fun event => event.tenantId == some tenantId))).take
          k).getLast? = some c) :
    repoListAuditEvents events tenantId k' (some ⟨c.createdAt, c.id⟩) =
      ((List.insertionSort auditDescLE
        (events.filter (fun event => event.tenantId == some tenantId))).drop
          k).take k' := by
  unfold repoListAuditEvents
  refine congrArg (List.take k') ?_
  exact filter_after_cursor_eq_drop
    (fun x y => isAfterAuditCursor x ⟨y.createdAt, y.id⟩) _ k c
    (sorted_audit_pairwise _ hids)
    (fun x y h => isAfterAuditCursor_asymm x y h)
    (fun x => isAfterAuditCursor_irrefl x)
    hc

lemma listAuditEvents_ok_elim {config : AuditLogQueryServiceConfig}
    {tenantSt : TenantRepoState} {auditEvents : List AuditLogEvent}
    {userId tenantId : String} {limit : Option Nat} {cursor : Option AuditLogListCursor}
    {page : AuditLogListPage} {k : Nat}
    (hok : listAuditEvents config tenantSt auditEvents userId tenantId limit cursor =
      Except.ok page)
    (hk : auditNormalizeLimit config limit = Except.ok k) :
    page.events = repoListAuditEvents auditEvents tenantId k cursor ∧
      page.nextCursor =
        (if page.events.length < k ∨ page.events.getLast? = none then none
         else
           match page.events.getLast? with
           | none => none
           | some last => some { createdAt := last.createdAt, id := last.id }) := by
  simp only [listAuditEvents, bind, Except.bind, hk] at hok
  split at hok
  · simp at hok
  · split at hok
    · simp at hok
    · simp only [pure, Except.pure, Except.ok.injEq] at hok
      subst hok
      exact ⟨rfl, rfl⟩

/-- C7: a list page's nextCursor is non-null iff the page holds exactly the
effective limit k of rows (a short page always ends the listing), for both
the incident list and the audit-log list; and for both listings, when the
ids in the tenant's store are distinct, the no-cursor page is the first k
rows of the (createdAt DESC, id DESC) sorted listing, re-querying with the
page's emitted cursor returns the next k' rows, and the two pages
concatenate to the first k + k' rows — no duplicates and no gaps. -/
theorem cursor_pagination :
    (∀ (config : IncidentServiceConfig) (tenantSt : TenantRepoState)
      (incidentSt : IncidentRepoState) (userId tenantId : String) (limit : Option Nat)
      (cursor : Option IncidentListCursor) (page : IncidentListPage) (k : Nat),
      listIncidents config tenantSt incidentSt userId tenantId limit cursor =
        Except.ok page →
      normalizeLimit config limit = Except.ok k → 0 < k →
        (page.nextCursor ≠ none ↔ page.incidents.length = k))
    ∧ (∀ (config : AuditLogQueryServiceConfig) (tenantSt : TenantRepoState)
        (auditEvents : List AuditLogEvent) (userId tenantId : String)
        (limit : Option Nat) (cursor : Option AuditLogListCursor)
        (page : AuditLogListPage) (k : Nat),
        listAuditEvents config tenantSt auditEvents userId tenantId limit cursor =
          Except.ok page →
        auditNormalizeLimit config limit = Except.ok k → 0 < k →
          (page.nextCursor ≠ none ↔ page.events.length = k))
    ∧ (∀ (config : IncidentServiceConfig) (tenantSt : TenantRepoState)
        (incidentSt : IncidentRepoState) (userId tenantId : String)
        (limit : Option Nat) (page : IncidentListPage) (k : Nat)
        (cur : IncidentListCursor),
        (incidentSt.incidents.filter
          (fun incident => incident.tenantId == tenantId)).Pairwise
            (fun a b => a.id ≠ b.id) →
        listIncidents config tenantSt incidentSt userId tenantId limit none =
          Except.ok page →
        normalizeLimit config limit = Except.ok k →
        page.nextCursor = some cur →
          page.incidents =
            (List.insertionSort compareDescendingLE
              (incidentSt.incidents.filter
                (fun incident => incident.tenantId == tenantId))).take k
          ∧ ∀ k' : Nat,
              repoListIncidents incidentSt.incidents tenantId k' (some cur) =
                ((List.insertionSort compareDescendingLE
                  (incidentSt.incidents.filter
                    (fun incident => incident.tenantId == tenantId))).drop k).take k'
              ∧ page.incidents ++
                  repoListIncidents incidentSt.incidents tenantId k' (some cur) =
                (List.insertionSort compareDescendingLE
                  (incidentSt.incidents.filter
                    (fun incident => incident.tenantId == tenantId))).take (k + k'))
    ∧ (∀ (config : AuditLogQueryServiceConfig) (tenantSt : TenantRepoState)
        (auditEvents : List AuditLogEvent) (userId tenantId : String)
        (limit : Option Nat) (page : AuditLogListPage) (k : Nat)
        (cur : AuditLogListCursor),
        (auditEvents.filter
          (fun event => event.tenantId == some tenantId)).Pairwise
            (fun a b => a.id ≠ b.id) →
        listAuditEvents config tenantSt auditEvents userId tenantId limit none =
          Except.ok page →
        auditNormalizeLimit config limit = Except.ok k →
        page.nextCursor = some cur →
          page.events =
            (List.insertionSort auditDescLE
              (auditEvents.filter
                (fun event => event.tenantId == some tenantId))).take k
          ∧ ∀ k' : Nat,
              repoListAuditEvents auditEvents tenantId k' (some cur) =
                ((List.insertionSort auditDescLE
                  (auditEvents.filter
                    (fun event => event.tenantId == some tenantId))).drop k).take k'
              ∧ page.events ++
                  repoListAuditEvents auditEvents tenantId k' (some cur) =
                (List.insertionSort auditDescLE
                  (auditEvents.filter
                    (fun event => event.tenantId == some tenantId))).take (k + k')) := by
  have hiff : ∀ (config : IncidentServiceConfig) (tenantSt : TenantRepoState)
      (incidentSt : IncidentRepoState) (userId tenantId : String) (limit : Option Nat)
      (cursor : Option IncidentListCursor) (page : IncidentListPage) (k : Nat),
      listIncidents config tenantSt incidentSt userId tenantId limit cursor =
        Except.ok page →
      normalizeLimit config limit = Except.ok k → 0 < k →
        (page.nextCursor ≠ none ↔ page.incidents.length = k) := by
    intro config tenantSt incidentSt userId tenantId limit cursor page k hok hk hkpos
    obtain ⟨hinc, hcur⟩ := listIncidents_ok_elim hok hk
    have hlen : page.incidents.length ≤ k := by
      rw [hinc]
      exact repoListIncidents_length_le _ _ _ _
    by_cases hfull : page.incidents.length = k
    · have hne : page.incidents ≠ [] := by
        intro hnil
        rw [hnil] at hfull
        simp at hfull
        omega
      have hsome : page.incidents.getLast?.isSome := List.getLast?_isSome.mpr hne
      obtain ⟨last, hlast⟩ := Option.isSome_iff_exists.mp hsome
      rw [hcur, hlast, hfull]
      simp
    · have hlt : page.incidents.length < k := by omega
      rw [hcur]
      simp [hlt, hfull]
  refine ⟨hiff, ?_, ?_, ?_⟩
  · intro config tenantSt auditEvents userId tenantId limit cursor page k hok hk hkpos
    obtain ⟨hev, hcur⟩ := listAuditEvents_ok_elim hok hk
    have hlen : page.events.length ≤ k := by
      rw [hev]
      unfold repoListAuditEvents
      rw [List.length_take]
      exact Nat.min_le_left _ _
    by_cases hfull : page.events.length = k
    · have hne : page.events ≠ [] := by
        intro hnil
        rw [hnil] at hfull
        simp at hfull
        omega
      have hsome : page.events.getLast?.isSome := List.getLast?_isSome.mpr hne
      obtain ⟨last, hlast⟩ := Option.isSome_iff_exists.mp hsome
      rw [hcur, hlast, hfull]
      simp
    · have hlt : page.events.length < k := by omega
      rw [hcur]
      simp [hlt, hfull]
  · intro config tenantSt incidentSt userId tenantId limit page k cur hids hok hk hsome
    obtain ⟨hinc, hcur⟩ := listIncidents_ok_elim hok hk
    rw [repoListIncidents_no_cursor] at hinc
    refine ⟨hinc, ?_⟩
    have hlast : ∃ last, page.incidents.getLast? = some last ∧
        cur = ⟨last.createdAt, last.id⟩ := by
      rw [hcur] at hsome
      by_cases hc : page.incidents.length < k ∨ page.incidents.getLast? = none
      · rw [if_pos hc] at hsome
        cases hsome
      · rw [if_neg hc] at hsome
        cases hl : page.incidents.getLast? with
        | none => rw [hl] at hsome; cases hsome
        | some last =>
          rw [hl] at hsome
          refine ⟨last, rfl, ?_⟩
          injection hsome with h
          rw [← h]

    obtain ⟨last, hl, hcureq⟩ := hlast
    have hctake : ((List.insertionSort compareDescendingLE
        (incidentSt.incidents.filter
          (fun incident => incident.tenantId == tenantId))).take k).getLast? =
        some last := by
      rw [← hinc]
      exact hl
    intro k'
    have hcont := repoListIncidents_cursor_continues incidentSt.incidents tenantId k k'
      last hids hctake
    rw [hcureq]
    refine ⟨hcont, ?_⟩
    rw [hinc, hcont, List.take_add]
  · intro config tenantSt auditEvents userId tenantId limit page k cur hids hok hk hsome
    obtain ⟨hev, hcur⟩ := listAuditEvents_ok_elim hok hk
    rw [repoListAuditEvents_no_cursor] at hev
    refine ⟨hev, ?_⟩
    have hlast : ∃ last, page.events.getLast? = some last ∧
        cur = ⟨last.createdAt, last.id⟩ := by
      rw [hcur] at hsome
      by_cases hc : page.events.length < k ∨ page.events.getLast? = none
      · rw [if_pos hc] at hsome
        cases hsome
      · rw [if_neg hc] at hsome
        cases hl : page.events.getLast? with
        | none => rw [hl] at hsome; cases hsome
        | some last =>
          rw [hl] at hsome
          refine ⟨last, rfl, ?_⟩
          injection hsome with h
          rw [← h]

    obtain ⟨last, hl, hcureq⟩ := hlast
    have hctake : ((List.insertionSort auditDescLE
        (auditEvents.filter
          (fun event => event.tenantId == some tenantId))).take k).getLast? =
        some last := by
      rw [← hev]
      exact hl
    intro k'
    have hcont := repoListAuditEvents_cursor_continues auditEvents tenantId k k'
      last hids hctake
    rw [hcureq]
    refine ⟨hcont, ?_⟩
    rw [hev, hcont, List.take_add]

/-- C7 witness: a three-incident tenant listed with limit 2 yields the two
newest incidents and a cursor; re-querying with that cursor yields the third,
and the concatenation is the full descending listing. -/
theorem cursor_pagination_witness :
    ∃ page : IncidentListPage,
      listIncidents ⟨25, 100⟩ quotaScenarioTenantSt
          ⟨[⟨1, "t1", "a", "", .SEV1, .declared, 0, none, "u1", [], 10, 10⟩,
            ⟨2, "t1", "b", "", .SEV1, .declared, 0, none, "u1", [], 20, 20⟩,
            ⟨3, "t1", "c", "", .SEV1, .declared, 0, none, "u1", [], 30, 30⟩], [], [], []⟩
          "u1" "t1" (some 2) none = Except.ok page
      ∧ (page.nextCursor ≠ none ↔ page.incidents.length = 2)
      ∧ page.nextCursor = some ⟨20, 2⟩ := by
  refine ⟨⟨[⟨3, "t1", "c", "", .SEV1, .declared, 0, none, "u1", [], 30, 30⟩,
      ⟨2, "t1", "b", "", .SEV1, .declared, 0, none, "u1", [], 20, 20⟩],
      some ⟨20, 2⟩⟩, ?_, ?_, rfl⟩
  · decide
  · exact cursor_pagination.1 ⟨25, 100⟩ quotaScenarioTenantSt
      ⟨[⟨1, "t1", "a", "", .SEV1, .declared, 0, none, "u1", [], 10, 10⟩,
        ⟨2, "t1", "b", "", .SEV1, .declared, 0, none, "u1", [], 20, 20⟩,
        ⟨3, "t1", "c", "", .SEV1, .declared, 0, none, "u1", [], 30, 30⟩], [], [], []⟩
      "u1" "t1" (some 2) none _ 2 (by decide) (by decide) (by decide)

/-- C8 witness: the boundary invite accepted well before expiry succeeds, by
the success-condition direction of the amended theorem. -/
theorem invite_acceptance_rules_witness :
    (acceptInvite inviteBoundarySt "tok-hash" "u1" "alice@example.com" 50 "m2").isSome
      = true := by
  exact (invite_acceptance_rules.1 inviteBoundarySt "tok-hash" "u1" "alice@example.com"
    50 "m2" ⟨"i1", "t1", "alice@example.com", .Responder, "tok-hash", "u0",
      100, none, none, 0⟩ (by decide)).mpr
    ⟨rfl, by decide, by decide, by decide⟩

end IncidentTracker
